import Mathlib

/-! # Floppy Bird: the per-frame simulation of `src/Maingame/src/main.c`

A shallow embedding of the game loop of `main.c` (the same simulation code is
duplicated in `src/beta.c`).

Modelling conventions.

* `int` variables are `Int`; no value of the game comes near the 32-bit range
  (coordinates stay within a few thousand, counters grow by one per event).
* The flags `active`, `scored`, `gameOver`, `inMenu`, `running` only ever hold
  `0` or `1` and are only tested for truth, so they are `Bool`.
* The `float` variables `birdY` and `birdVelocity` are exact rationals.  Every
  value they take from a reset is a multiple of `1/4` of small magnitude
  (`360`, `0`, `-8`, sums with `0.25`), on which binary32 arithmetic is exact.
* `pipes[MAX_PIPES]` is the list of its slots, in index order; a `for` loop over
  all indices is a recursion over that list.
* `rand()` is a stream `rand : Nat → Nat` of non-negative values together with
  the cursor `randPos` counting the calls made so far.
* Rendering and audio calls have no effect on the simulated variables and are
  left out.
-/

namespace FloppyBird

/-! ## Constants and data -/

def WINDOW_WIDTH : Int := 1280
def WINDOW_HEIGHT : Int := 720
def PIPE_WIDTH : Int := 100
def PIPE_GAP : Int := 250
def MAX_PIPES : Nat := 20

/-- One slot of the pipe pool (`typedef struct { int x, height; int active; int scored; } Pipe`). -/
structure Pipe where
  x : Int
  height : Int
  active : Bool
  scored : Bool
deriving DecidableEq, Repr

/-- The four integer fields of an `SDL_Rect`. -/
structure SDL_Rect where
  x : Int
  y : Int
  w : Int
  h : Int
deriving DecidableEq, Repr

/-- Rectangle test of `main.c` lines 21-26. -/
def checkCollision (a b : SDL_Rect) : Bool :=
  !(decide (a.x + a.w < b.x) ||
    decide (a.x > b.x + b.w) ||
    decide (a.y + a.h < b.y) ||
    decide (a.y > b.y + b.h))

def gravity : ℚ := 1 / 4
def flapStrength : ℚ := -8
def pipeSpeed : Int := 3
def dashSpeed : Int := 12

/-- Conversion `(int)f` of a float: truncation toward zero. -/
def truncToInt (q : ℚ) : Int := Int.tdiv q.num (q.den : Int)

/-- The variables of `main` that the simulation reads and writes.  `birdRectY`
is `birdRect.y`; the other fields of `birdRect` stay `250, 106, 60`. -/
structure Game where
  running : Bool
  gameOver : Bool
  inMenu : Bool
  birdY : ℚ
  birdVelocity : ℚ
  pipes : List Pipe
  pipeTimer : Int
  score : Int
  normalPipeCounter : Int
  threePipeCooldown : Int
  birdRectY : Int
  randPos : Nat
deriving Repr

/-- The rectangle `birdRect = {250, (int)birdY, 106, 60}` for a given `y`. -/
def birdRect (y : Int) : SDL_Rect := { x := 250, y := y, w := 106, h := 60 }

def restartButton : SDL_Rect :=
  { x := WINDOW_WIDTH / 2 - 150, y := WINDOW_HEIGHT / 2 - 50, w := 300, h := 100 }

def startButton : SDL_Rect :=
  { x := WINDOW_WIDTH / 2 - 400, y := WINDOW_HEIGHT / 2 - 100, w := 800, h := 200 }

/-- State of `main` before the first frame (lines 88-97). -/
def initGame : Game :=
  { running := true, gameOver := false, inMenu := true,
    birdY := ((WINDOW_HEIGHT / 2 : Int) : ℚ), birdVelocity := 0,
    pipes := List.replicate MAX_PIPES { x := 0, height := 0, active := false, scored := false },
    pipeTimer := 0, score := 0, normalPipeCounter := 0, threePipeCooldown := 0,
    birdRectY := WINDOW_HEIGHT / 2, randPos := 0 }

/-- Function `resetGame` of `main.c` lines 28-36. -/
def resetGame (s : Game) : Game :=
  { s with
    birdY := ((WINDOW_HEIGHT / 2 : Int) : ℚ)
    birdVelocity := 0
    pipes := s.pipes.map (fun p => { p with active := false })
    pipeTimer := 0
    score := 0
    normalPipeCounter := 0
    threePipeCooldown := 0 }

/-! ## Events (lines 105-151) -/

inductive Keycode where
  | SDLK_SPACE
  | SDLK_LSHIFT
  | SDLK_RSHIFT
  | SDLK_r
  | other
deriving DecidableEq, Repr

/-- The events the loop distinguishes, by `event.type`. -/
inductive Event where
  | quit
  | mouseButtonDown (mx my : Int)
  | keyDown (sym : Keycode)
  | keyUp (sym : Keycode)
  | other
deriving DecidableEq, Repr

/-- The test `mx >= b.x && mx <= b.x + b.w && my >= b.y && my <= b.y + b.h`. -/
def inButton (b : SDL_Rect) (mx my : Int) : Bool :=
  decide (mx ≥ b.x) && decide (mx ≤ b.x + b.w) && decide (my ≥ b.y) && decide (my ≤ b.y + b.h)

/-- Body of the `while (SDL_PollEvent(&event))` loop for one event. -/
def handleEvent (s : Game) (e : Event) : Game :=
  let s := if e = Event.quit then { s with running := false } else s
  if s.inMenu then
    match e with
    | Event.mouseButtonDown mx my =>
      if inButton startButton mx my then resetGame { s with inMenu := false } else s
    | _ => s
  else
    match e with
    | Event.keyDown sym =>
      if !s.gameOver then
        if sym = Keycode.SDLK_SPACE then { s with birdVelocity := flapStrength } else s
      else if sym = Keycode.SDLK_r then
        { resetGame s with gameOver := false }
      else s
    | Event.mouseButtonDown mx my =>
      if s.gameOver && inButton restartButton mx my then
        { resetGame s with gameOver := false }
      else s
    | _ => s

/-! ## The simulation block (lines 156-240) -/

/-- Player update and boundary check, lines 158-168. -/
def physics (s : Game) (shiftHeld : Bool) : Game :=
  let v := if shiftHeld then 0 else s.birdVelocity
  let v := if !shiftHeld then v + gravity else v
  let y := s.birdY + v
  let s := { s with birdVelocity := v, birdY := y, birdRectY := truncToInt y }
  if y ≤ 0 ∨ y + (((birdRect s.birdRectY).h : Int) : ℚ) ≥ ((WINDOW_HEIGHT : Int) : ℚ) then
    { s with gameOver := true }
  else s

/-- Value `50 + rand() % (WINDOW_HEIGHT - PIPE_GAP - 100)` for a returned `r`. -/
def gapHeight (r : Nat) : Int := 50 + (r : Int) % (WINDOW_HEIGHT - PIPE_GAP - 100)

/-- Scan of a normal spawn (lines 175-183, 203-211): the first inactive slot is
activated at the right edge with a fresh random height; `rand()` is called only
when such a slot is found.  Returns the pool and the cursor of `rand`. -/
def spawnNormalScan (rand : Nat → Nat) : List Pipe → Nat → List Pipe × Nat
  | [], k => ([], k)
  | p :: ps, k =>
    if !p.active then
      ({ x := WINDOW_WIDTH, height := gapHeight (rand k), active := true, scored := false } :: ps,
        k + 1)
    else
      let r := spawnNormalScan rand ps k
      (p :: r.1, r.2)

/-- Inner scan of a cluster spawn (lines 190-198): the first inactive slot is
activated at `x` with the shared height. -/
def spawnClusterScan (x baseHeight : Int) : List Pipe → List Pipe
  | [] => []
  | p :: ps =>
    if !p.active then
      { x := x, height := baseHeight, active := true, scored := false } :: ps
    else
      p :: spawnClusterScan x baseHeight ps

/-- The loop `for (int j = 0; j < 3; j++)` of lines 189-199. -/
def spawnCluster (baseHeight : Int) (pipes : List Pipe) : List Pipe :=
  (List.range 3).foldl
    (fun (ps : List Pipe) (j : Nat) =>
      spawnClusterScan (WINDOW_WIDTH + (j : Int) * (PIPE_WIDTH + 10)) baseHeight ps)
    pipes

/-- Pipe spawning, lines 171-215. -/
def spawner (rand : Nat → Nat) (s : Game) : Game :=
  let s := { s with pipeTimer := s.pipeTimer + 1 }
  if s.pipeTimer > 80 then
    let s := { s with pipeTimer := 0 }
    if s.threePipeCooldown > 0 then
      let r := spawnNormalScan rand s.pipes s.randPos
      { s with
        pipes := r.1
        randPos := r.2
        threePipeCooldown := s.threePipeCooldown - 1
        normalPipeCounter := s.normalPipeCounter + 1 }
    else if s.normalPipeCounter ≥ 3 ∧ rand s.randPos % 5 = 0 then
      let baseHeight := gapHeight (rand (s.randPos + 1))
      { s with
        pipes := spawnCluster baseHeight s.pipes
        randPos := s.randPos + 2
        normalPipeCounter := 0
        threePipeCooldown := 3 }
    else
      -- the roll `rand() % 5` is evaluated only when `normalPipeCounter >= 3`
      let k := if s.normalPipeCounter ≥ 3 then s.randPos + 1 else s.randPos
      let r := spawnNormalScan rand s.pipes k
      { s with
        pipes := r.1
        randPos := r.2
        normalPipeCounter := s.normalPipeCounter + 1 }
  else s

def topPipe (x height : Int) : SDL_Rect :=
  { x := x, y := 0, w := PIPE_WIDTH, h := height }

def bottomPipe (x height : Int) : SDL_Rect :=
  { x := x, y := height + PIPE_GAP, w := PIPE_WIDTH, h := WINDOW_HEIGHT - height - PIPE_GAP }

def scoreZone (x : Int) : SDL_Rect :=
  { x := x + PIPE_WIDTH / 2, y := 0, w := 1, h := WINDOW_HEIGHT }

/-- The loop of lines 218-239 over the slots, threading `gameOver` and `score`. -/
def movePipes (bird : SDL_Rect) (speed : Int) : List Pipe → Bool → Int → List Pipe × Bool × Int
  | [], go, sc => ([], go, sc)
  | p :: ps, go, sc =>
    if p.active then
      let x := p.x - speed
      let go := if checkCollision bird (topPipe x p.height) ||
          checkCollision bird (bottomPipe x p.height) then true else go
      let hit := !p.scored && checkCollision bird (scoreZone x)
      let sc := if hit then sc + 1 else sc
      let scored := if hit then true else p.scored
      let active := if x + PIPE_WIDTH < 0 then false else p.active
      let r := movePipes bird speed ps go sc
      ({ x := x, height := p.height, active := active, scored := scored } :: r.1, r.2.1, r.2.2)
    else
      let r := movePipes bird speed ps go sc
      (p :: r.1, r.2.1, r.2.2)

/-- The block `if (!inMenu && !gameOver) { ... }`, lines 156-240. -/
def simulate (rand : Nat → Nat) (s : Game) (shiftHeld : Bool) : Game :=
  if !s.inMenu && !s.gameOver then
    let currentPipeSpeed := if shiftHeld then dashSpeed else pipeSpeed
    let s := physics s shiftHeld
    let s := spawner rand s
    let r := movePipes (birdRect s.birdRectY) currentPipeSpeed s.pipes s.gameOver s.score
    { s with pipes := r.1, gameOver := r.2.1, score := r.2.2 }
  else s

/-- One iteration of `while (running)`: the polled events in order, then the
keyboard snapshot `shiftHeld`, then the simulation block. -/
def frame (rand : Nat → Nat) (s : Game) (events : List Event) (shiftHeld : Bool) : Game :=
  simulate rand (events.foldl handleEvent s) shiftHeld

/-! ## Runs and spawn events -/

/-- The two branches a spawn event can take: the three-pipe row of lines
187-201, or one of the two normal-pipe branches (lines 174-185, 202-213). -/
inductive SpawnBranch where
  | cluster
  | single
deriving DecidableEq, Repr

/-- Branch taken by `spawner` in state `s`: `none` when the incremented
`pipeTimer` does not exceed 80, otherwise the branch selected by lines 174/187. -/
def spawnBranch (rand : Nat → Nat) (s : Game) : Option SpawnBranch :=
  if s.pipeTimer + 1 > 80 then
    if s.threePipeCooldown > 0 then some SpawnBranch.single
    else if s.normalPipeCounter ≥ 3 ∧ rand s.randPos % 5 = 0 then some SpawnBranch.cluster
    else some SpawnBranch.single
  else none

/-- Spawn event of one frame: the simulation block runs only when the state
left by the events is neither in the menu nor game over. -/
def frameBranch (rand : Nat → Nat) (s : Game) (events : List Event) (shiftHeld : Bool) :
    Option SpawnBranch :=
  let s := events.foldl handleEvent s
  if !s.inMenu && !s.gameOver then spawnBranch rand (physics s shiftHeld) else none

/-- The loop `while (running)` over the inputs of successive frames. -/
def run (rand : Nat → Nat) : Game → List (List Event × Bool) → Game
  | s, [] => s
  | s, inp :: rest => if s.running then run rand (frame rand s inp.1 inp.2) rest else s

/-- Spawn events of a run, in order: one entry per frame on which the spawner fires. -/
def spawnTrace (rand : Nat → Nat) : Game → List (List Event × Bool) → List SpawnBranch
  | _, [] => []
  | s, inp :: rest =>
    if s.running then
      match frameBranch rand s inp.1 inp.2 with
      | some b => b :: spawnTrace rand (frame rand s inp.1 inp.2) rest
      | none => spawnTrace rand (frame rand s inp.1 inp.2) rest
    else []

/-- Number of coming spawn events that cannot take the cluster branch: the
cooldown left, or what the streak counter lacks to reach 3. -/
def forcedSingles (s : Game) : Nat :=
  max s.threePipeCooldown.toNat (3 - s.normalPipeCounter).toNat

/-- Effect of one iteration of the loop of lines 218-239 on its slot. -/
def movePipe (bird : SDL_Rect) (speed : Int) (p : Pipe) : Pipe :=
  if p.active then
    { x := p.x - speed
      height := p.height
      active := if p.x - speed + PIPE_WIDTH < 0 then false else p.active
      scored := if !p.scored && checkCollision bird (scoreZone (p.x - speed)) then true
        else p.scored }
  else p

/-- Whether the loop of lines 218-239 reports a collision for slot `p` (line 226). -/
def pipeHits (bird : SDL_Rect) (speed : Int) (p : Pipe) : Bool :=
  p.active && (checkCollision bird (topPipe (p.x - speed) p.height) ||
    checkCollision bird (bottomPipe (p.x - speed) p.height))

/-- Whether the loop of lines 218-239 counts slot `p` (line 231). -/
def pipeScores (bird : SDL_Rect) (speed : Int) (p : Pipe) : Bool :=
  p.active && !p.scored && checkCollision bird (scoreZone (p.x - speed))

/-- The state after the start click of the first frame: `Playing`, freshly reset. -/
def startedGame : Game := handleEvent initGame (Event.mouseButtonDown 640 360)

/-- What `resetGame` establishes on the simulated variables: zero score, a pool
of `MAX_PIPES` slots none of which is active, the player at `WINDOW_HEIGHT / 2`
at rest, and zeroed timer and counters. -/
def FreshlyReset (s : Game) : Prop :=
  s.score = 0 ∧ s.pipes.length = MAX_PIPES ∧ (∀ p ∈ s.pipes, p.active = false) ∧
  s.birdY = 360 ∧ s.birdVelocity = 0 ∧ s.pipeTimer = 0 ∧
  s.normalPipeCounter = 0 ∧ s.threePipeCooldown = 0

/-- A `GameOver` state with a used pool, a score and running counters. -/
def crashedGame : Game :=
  { running := true, gameOver := true, inMenu := false, birdY := 661, birdVelocity := 21 / 4,
    pipes := { x := 260, height := 300, active := true, scored := true } ::
      { x := 503, height := 120, active := true, scored := false } ::
      List.replicate 18 { x := -103, height := 77, active := false, scored := true },
    pipeTimer := 40, score := 7, normalPipeCounter := 2, threePipeCooldown := 1,
    birdRectY := 661, randPos := 9 }

/-- A `Playing` state in mid-flight: two pipes around the player, the first
already scored, the spawn timer about to fire. -/
def midGame : Game :=
  { running := true, gameOver := false, inMenu := false, birdY := 300, birdVelocity := 3,
    pipes := { x := 260, height := 200, active := true, scored := true } ::
      { x := 303, height := 120, active := true, scored := false } ::
      List.replicate 18 { x := -103, height := 77, active := false, scored := true },
    pipeTimer := 80, score := 1, normalPipeCounter := 3, threePipeCooldown := 0,
    birdRectY := 300, randPos := 4 }

/-- State after `n` successive simulation blocks with no events in between;
`dash k` is the value of `shiftHeld` on tick `k`. -/
def ticks (rand : Nat → Nat) (dash : Nat → Bool) (s : Game) : Nat → Game
  | 0 => s
  | n + 1 => simulate rand (ticks rand dash s n) (dash n)

/-- Whether the tick run from `s` counts slot `i`: the block runs (`Playing`)
and line 231 holds for the slot at the movement loop. -/
def slotCounted (rand : Nat → Nat) (s : Game) (shiftHeld : Bool) (i : Nat) : Bool :=
  !s.inMenu && !s.gameOver &&
    match (spawner rand (physics s shiftHeld)).pipes[i]? with
    | some p =>
      pipeScores (birdRect (physics s shiftHeld).birdRectY)
        (if shiftHeld then dashSpeed else pipeSpeed) p
    | none => false

/-- State after `n` iterations of the loop body; `inp k` holds the events polled
on frame `k` and the value of `shiftHeld` on it. -/
def frames (rand : Nat → Nat) (inp : Nat → List Event × Bool) (s : Game) : Nat → Game
  | 0 => s
  | n + 1 => frame rand (frames rand inp s n) (inp n).1 (inp n).2

/-- Number of active slots of a pool. -/
def activeCount (pipes : List Pipe) : Nat := (pipes.filter (fun p => p.active)).length

/-- Whether event `e`, handled in state `s`, is the start action of the menu
(a click inside `startButton`) or a restart action of the game-over screen (the
`R` key or a click inside `restartButton`). -/
def startsOrRestarts (s : Game) (e : Event) : Bool :=
  match e with
  | Event.mouseButtonDown mx my =>
    if s.inMenu then inButton startButton mx my
    else s.gameOver && inButton restartButton mx my
  | Event.keyDown sym => !s.inMenu && s.gameOver && decide (sym = Keycode.SDLK_r)
  | _ => false

/-- A `Playing` state whose 20 slots are all active, the spawn timer about to
fire with the cluster branch open. -/
def fullPoolGame : Game :=
  { midGame with
    pipes := List.replicate 20 { x := 500, height := 200, active := true, scored := false } }

/-- Input of frame `k` of a player who presses space on every 63rd frame and
never holds shift. -/
def flapEvery63 (k : Nat) : List Event × Bool :=
  (if k % 63 = 0 then [Event.keyDown Keycode.SDLK_SPACE] else [], false)

/-- A `Playing` state with one obstacle, at `x = 1280` with gap top 300, and the
player at rest at `y = 430`. -/
def glideGame : Game :=
  { startedGame with
    birdY := 430
    birdRectY := 430
    pipes := { x := 1280, height := 300, active := true, scored := false } ::
      startedGame.pipes.tail }

/-- The `x` values of the active slots of a pool, in slot order. -/
def activeXs (pipes : List Pipe) : List Int := (pipes.filter (fun p => p.active)).map Pipe.x

/-- Positions that the obstacles of past spawn events can occupy: one entry per
spawn event, newest first, made of the current position `g.1` of its first
obstacle and of whether it was a cluster (`g.2`), whose obstacles sit at
`g.1`, `g.1 + 110` and `g.1 + 220`. -/
def allowedXs : List (Int × Bool) → List Int
  | [] => []
  | g :: L => (if g.2 then [g.1, g.1 + 110, g.1 + 220] else [g.1]) ++ allowedXs L

/-- Spacing of the spawn events in space: the newest one is at `ub` or further
left, and each older one at least 243 (81 ticks at 3 px) to the left of the
next. -/
def GenOK : Int → List (Int × Bool) → Prop
  | _, [] => True
  | ub, g :: L => g.1 ≤ ub ∧ GenOK (g.1 - 243) L

/-- Spacing of the clusters among the spawn events: the first `k` entries are
single spawns, and every cluster is followed by three older single spawns. -/
def Spaced : Nat → List (Int × Bool) → Prop
  | _, [] => True
  | k, g :: L => if g.2 then k = 0 ∧ Spaced 3 L else Spaced (k - 1) L

/-- The same spawn events after the pool has moved left by `v`. -/
def shiftGens (v : Int) (L : List (Int × Bool)) : List (Int × Bool) :=
  L.map (fun g => (g.1 - v, g.2))

/-- What is known of a pool whose newest spawn event lies at `ub` or further
left when `k` more single spawns are due: its active slots have distinct
positions, at least `-100`, taken from the positions of spaced spawn events. -/
def PoolOK (ub : Int) (k : Nat) (pipes : List Pipe) : Prop :=
  ∃ L, GenOK ub L ∧ Spaced (3 - k) L ∧ (activeXs pipes).Nodup ∧
    ∀ x ∈ activeXs pipes, x ∈ allowedXs L ∧ -100 ≤ x

/-- Invariant of the loop between frames. -/
def PoolInv (s : Game) : Prop :=
  s.pipes.length = MAX_PIPES ∧ 0 ≤ s.pipeTimer ∧ s.pipeTimer ≤ 80 ∧
    PoolOK (1280 - 3 * (s.pipeTimer + 1)) (forcedSingles s) s.pipes

/-- Input of frame `k` of a player who holds shift on every other frame and
presses nothing else. -/
def dashEveryOther (k : Nat) : List Event × Bool := ([], decide (k % 2 = 0))

/-! ## Events in the playing mode -/

theorem handleEvent_playing (s : Game) (e : Event) (hm : s.inMenu = false)
    (hg : s.gameOver = false) :
    handleEvent s e =
      { s with
        running := if e = Event.quit then false else s.running
        birdVelocity :=
          if e = Event.keyDown Keycode.SDLK_SPACE then flapStrength else s.birdVelocity } := by
  obtain ⟨r, g, m, y, v, ps, t, sc, n, c, ry, k⟩ := s
  simp only at hm hg
  subst hm hg
  cases e with
  | keyDown sym => cases sym <;> simp [handleEvent]
  | _ => simp [handleEvent]

theorem foldl_handleEvent_playing (events : List Event) (s : Game) (hm : s.inMenu = false)
    (hg : s.gameOver = false) :
    events.foldl handleEvent s =
      { s with
        running := if Event.quit ∈ events then false else s.running
        birdVelocity :=
          if Event.keyDown Keycode.SDLK_SPACE ∈ events then flapStrength
          else s.birdVelocity } := by
  induction events generalizing s with
  | nil => simp
  | cons e es ih =>
    rw [List.foldl_cons, handleEvent_playing s e hm hg]
    rw [ih _ (by exact hm) (by exact hg)]
    have q : (Event.quit ∈ e :: es) ↔ (e = Event.quit ∨ Event.quit ∈ es) := by
      rw [List.mem_cons, eq_comm]
    have f : (Event.keyDown Keycode.SDLK_SPACE ∈ e :: es) ↔
        (e = Event.keyDown Keycode.SDLK_SPACE ∨ Event.keyDown Keycode.SDLK_SPACE ∈ es) := by
      rw [List.mem_cons, eq_comm]
    simp only [q, f]
    by_cases h1 : e = Event.quit <;> by_cases h2 : e = Event.keyDown Keycode.SDLK_SPACE <;>
      by_cases h3 : Event.quit ∈ es <;>
      by_cases h4 : Event.keyDown Keycode.SDLK_SPACE ∈ es <;>
      simp [h1, h2, h3, h4]

/-! ## Field-wise description of the simulation block -/

theorem physics_birdVelocity (s : Game) (shiftHeld : Bool) :
    (physics s shiftHeld).birdVelocity = if shiftHeld then 0 else s.birdVelocity + gravity := by
  cases shiftHeld <;>
    simp only [physics, Bool.false_eq_true, if_false, if_true, Bool.not_false, Bool.not_true] <;>
    split_ifs <;> simp

theorem physics_birdY (s : Game) (shiftHeld : Bool) :
    (physics s shiftHeld).birdY = s.birdY + (physics s shiftHeld).birdVelocity := by
  cases shiftHeld <;>
    simp only [physics, Bool.false_eq_true, if_false, if_true, Bool.not_false, Bool.not_true] <;>
    split_ifs <;> simp

theorem physics_birdRectY (s : Game) (shiftHeld : Bool) :
    (physics s shiftHeld).birdRectY = truncToInt (physics s shiftHeld).birdY := by
  cases shiftHeld <;>
    simp only [physics, Bool.false_eq_true, if_false, if_true, Bool.not_false, Bool.not_true] <;>
    split_ifs <;> simp

theorem physics_gameOver (s : Game) (shiftHeld : Bool) :
    (physics s shiftHeld).gameOver =
      (s.gameOver || decide ((physics s shiftHeld).birdY ≤ 0 ∨
        (physics s shiftHeld).birdY + 60 ≥ 720)) := by
  cases shiftHeld <;>
    simp only [physics, Bool.false_eq_true, if_false, if_true, Bool.not_false, Bool.not_true] <;>
    split_ifs with h
  · rw [decide_eq_true (by simpa [birdRect, WINDOW_HEIGHT] using h)]; simp
  · rw [decide_eq_false (by simpa [birdRect, WINDOW_HEIGHT] using h)]; simp
  · rw [decide_eq_true (by simpa [birdRect, WINDOW_HEIGHT] using h)]; simp
  · rw [decide_eq_false (by simpa [birdRect, WINDOW_HEIGHT] using h)]; simp

theorem physics_frame (s : Game) (shiftHeld : Bool) :
    (physics s shiftHeld).pipes = s.pipes ∧ (physics s shiftHeld).pipeTimer = s.pipeTimer ∧
    (physics s shiftHeld).score = s.score ∧
    (physics s shiftHeld).normalPipeCounter = s.normalPipeCounter ∧
    (physics s shiftHeld).threePipeCooldown = s.threePipeCooldown ∧
    (physics s shiftHeld).randPos = s.randPos ∧ (physics s shiftHeld).inMenu = s.inMenu ∧
    (physics s shiftHeld).running = s.running := by
  cases shiftHeld <;>
    simp only [physics, Bool.false_eq_true, if_false, if_true, Bool.not_false, Bool.not_true] <;>
    split_ifs <;> simp

theorem spawner_frame (rand : Nat → Nat) (s : Game) :
    (spawner rand s).birdY = s.birdY ∧ (spawner rand s).birdVelocity = s.birdVelocity ∧
    (spawner rand s).birdRectY = s.birdRectY ∧ (spawner rand s).gameOver = s.gameOver ∧
    (spawner rand s).inMenu = s.inMenu ∧ (spawner rand s).score = s.score ∧
    (spawner rand s).running = s.running := by
  unfold spawner
  simp only []
  split_ifs <;> simp

theorem movePipes_pipes (bird : SDL_Rect) (speed : Int) (ps : List Pipe) (go : Bool) (sc : Int) :
    (movePipes bird speed ps go sc).1 = ps.map (movePipe bird speed) := by
  induction ps generalizing go sc with
  | nil => rfl
  | cons p ps ih =>
    by_cases hp : p.active = true
    · simp [movePipes, movePipe, hp, ih]
    · simp [movePipes, movePipe, hp, ih]

theorem movePipes_gameOver (bird : SDL_Rect) (speed : Int) (ps : List Pipe) (go : Bool)
    (sc : Int) :
    (movePipes bird speed ps go sc).2.1 = (go || ps.any (pipeHits bird speed)) := by
  induction ps generalizing go sc with
  | nil => simp [movePipes]
  | cons p ps ih =>
    by_cases hp : p.active = true
    · simp only [movePipes, hp, if_true, ih, List.any_cons, pipeHits, Bool.true_and]
      cases checkCollision bird (topPipe (p.x - speed) p.height) <;>
        cases checkCollision bird (bottomPipe (p.x - speed) p.height) <;> cases go <;> simp
    · simp [movePipes, pipeHits, hp, ih]

theorem movePipes_score (bird : SDL_Rect) (speed : Int) (ps : List Pipe) (go : Bool)
    (sc : Int) :
    (movePipes bird speed ps go sc).2.2 = sc + ((ps.filter (pipeScores bird speed)).length : Int) := by
  induction ps generalizing go sc with
  | nil => simp [movePipes]
  | cons p ps ih =>
    by_cases hp : p.active = true
    · by_cases hs : (!p.scored && checkCollision bird (scoreZone (p.x - speed))) = true
      · have hf : pipeScores bird speed p = true := by
          simp only [pipeScores, hp, Bool.true_and]
          simpa using hs
        simp only [movePipes, hp, if_true, hs, ih, List.filter_cons, hf, List.length_cons]
        push_cast
        ring
      · have hf : pipeScores bird speed p = false := by
          simp only [pipeScores, hp, Bool.true_and]
          simpa using hs
        simp [movePipes, hp, hs, ih, List.filter_cons, hf]
    · have hf : pipeScores bird speed p = false := by simp [pipeScores, hp]
      simp [movePipes, hp, ih, List.filter_cons, hf]

theorem simulate_playing (rand : Nat → Nat) (s : Game) (shiftHeld : Bool)
    (hm : s.inMenu = false) (hg : s.gameOver = false) :
    simulate rand s shiftHeld =
      { spawner rand (physics s shiftHeld) with
        pipes := (spawner rand (physics s shiftHeld)).pipes.map
          (movePipe (birdRect (physics s shiftHeld).birdRectY)
            (if shiftHeld then dashSpeed else pipeSpeed))
        gameOver := ((physics s shiftHeld).gameOver ||
          (spawner rand (physics s shiftHeld)).pipes.any
            (pipeHits (birdRect (physics s shiftHeld).birdRectY)
              (if shiftHeld then dashSpeed else pipeSpeed)))
        score := s.score +
          (((spawner rand (physics s shiftHeld)).pipes.filter
            (pipeScores (birdRect (physics s shiftHeld).birdRectY)
              (if shiftHeld then dashSpeed else pipeSpeed))).length : Int) } := by
  obtain ⟨h1, h2, h3, h4, h5, h6, h7⟩ := spawner_frame rand (physics s shiftHeld)
  obtain ⟨g1, g2, g3, g4, g5, g6, g7, g8⟩ := physics_frame s shiftHeld
  simp only [simulate, hm, hg, Bool.not_false, Bool.and_self, if_true, movePipes_pipes,
    movePipes_gameOver, movePipes_score, h3, h4, h6, g3]

theorem simulate_idle (rand : Nat → Nat) (s : Game) (shiftHeld : Bool)
    (h : s.inMenu = true ∨ s.gameOver = true) : simulate rand s shiftHeld = s := by
  rcases h with h | h <;> simp [simulate, h]

/-! ## checkCollision -/

theorem checkCollision_iff (a b : SDL_Rect) :
    checkCollision a b = true ↔
      (a.x ≤ b.x + b.w ∧ b.x ≤ a.x + a.w) ∧ (a.y ≤ b.y + b.h ∧ b.y ≤ a.y + a.h) := by
  simp only [checkCollision, Bool.not_eq_true', Bool.or_eq_false_iff, decide_eq_false_iff_not,
    not_lt, gt_iff_lt]
  tauto

theorem events_playing (events : List Event) (s : Game) (hm : s.inMenu = false)
    (hg : s.gameOver = false) :
    (events.foldl handleEvent s).inMenu = false ∧
    (events.foldl handleEvent s).gameOver = false ∧
    (events.foldl handleEvent s).birdY = s.birdY ∧
    (events.foldl handleEvent s).birdVelocity =
      (if Event.keyDown Keycode.SDLK_SPACE ∈ events then flapStrength else s.birdVelocity) ∧
    (events.foldl handleEvent s).pipes = s.pipes ∧
    (events.foldl handleEvent s).pipeTimer = s.pipeTimer ∧
    (events.foldl handleEvent s).score = s.score ∧
    (events.foldl handleEvent s).normalPipeCounter = s.normalPipeCounter ∧
    (events.foldl handleEvent s).threePipeCooldown = s.threePipeCooldown ∧
    (events.foldl handleEvent s).birdRectY = s.birdRectY ∧
    (events.foldl handleEvent s).randPos = s.randPos := by
  rw [foldl_handleEvent_playing events s hm hg]
  simp [hm, hg]

theorem frame_birdVelocity_playing (rand : Nat → Nat) (s : Game) (events : List Event)
    (shiftHeld : Bool) (hm : s.inMenu = false) (hg : s.gameOver = false) :
    (frame rand s events shiftHeld).birdVelocity =
      if shiftHeld then 0
      else (if Event.keyDown Keycode.SDLK_SPACE ∈ events then flapStrength
        else s.birdVelocity) + gravity := by
  obtain ⟨e1, e2, -, e4, -⟩ := events_playing events s hm hg
  rw [frame, simulate_playing _ _ _ e1 e2]
  simp only [(spawner_frame _ _).2.1, physics_birdVelocity, e4]

theorem frame_birdY_playing (rand : Nat → Nat) (s : Game) (events : List Event)
    (shiftHeld : Bool) (hm : s.inMenu = false) (hg : s.gameOver = false) :
    (frame rand s events shiftHeld).birdY =
      s.birdY + (frame rand s events shiftHeld).birdVelocity := by
  obtain ⟨e1, e2, e3, -⟩ := events_playing events s hm hg
  rw [frame, simulate_playing _ _ _ e1 e2]
  simp only [(spawner_frame _ _).1, (spawner_frame _ _).2.1, physics_birdY, e3]

/-! ## C1: a flap and the gravity step of the same tick -/

/-- C1 (as the code has it): in `Playing`, a frame whose events contain a space
key-down and on which shift is not held ends with `birdVelocity = -7.75`, that is
`flapStrength + gravity`, whatever the prior velocity: the flap overwrites the
velocity while the events are handled, and the gravity step of line 161 is then
applied to it. -/
theorem flap_then_gravity (rand : Nat → Nat) (s : Game) (events : List Event)
    (hm : s.inMenu = false) (hg : s.gameOver = false)
    (hflap : Event.keyDown Keycode.SDLK_SPACE ∈ events) :
    (frame rand s events false).birdVelocity = -31 / 4 ∧
      (frame rand s events false).birdVelocity = flapStrength + gravity := by
  rw [frame_birdVelocity_playing rand s events false hm hg]
  simp only [hflap, if_true, Bool.false_eq_true, if_false, flapStrength, gravity]
  norm_num

theorem flap_then_gravity_witness :
    (frame (fun _ => 0) startedGame [Event.keyDown Keycode.SDLK_SPACE] false).birdVelocity
        = -31 / 4 ∧
      (frame (fun _ => 0) startedGame [Event.keyDown Keycode.SDLK_SPACE] false).birdVelocity
        = flapStrength + gravity :=
  flap_then_gravity (fun _ => 0) startedGame [Event.keyDown Keycode.SDLK_SPACE] rfl rfl
    (by decide)

/-- C1 fails as stated: from the freshly started game, a frame with a space
key-down and no shift ends with velocity `-7.75`, not `-8`. -/
theorem flap_not_exactly_flapStrength :
    startedGame.inMenu = false ∧ startedGame.gameOver = false ∧
      (frame (fun _ => 0) startedGame [Event.keyDown Keycode.SDLK_SPACE] false).birdVelocity
        = -31 / 4 ∧
      (frame (fun _ => 0) startedGame [Event.keyDown Keycode.SDLK_SPACE] false).birdVelocity
        ≠ -8 := by
  decide!

/-! ## C2: range of the gap height -/

theorem gapHeight_bounds (r : Nat) : 50 ≤ gapHeight r ∧ gapHeight r ≤ 419 := by
  unfold gapHeight WINDOW_HEIGHT PIPE_GAP
  omega

theorem mem_spawnNormalScan (rand : Nat → Nat) (ps : List Pipe) (k : Nat) (p : Pipe)
    (hp : p ∈ (spawnNormalScan rand ps k).1) :
    p ∈ ps ∨ ∃ r, p = { x := WINDOW_WIDTH, height := gapHeight r, active := true, scored := false } := by
  induction ps with
  | nil => simp [spawnNormalScan] at hp
  | cons q qs ih =>
    by_cases hq : q.active = true
    · simp only [spawnNormalScan, hq, Bool.not_true, Bool.false_eq_true, if_false,
        List.mem_cons] at hp
      rcases hp with hp | hp
      · exact Or.inl (by simp [hp])
      · rcases ih hp with h | h
        · exact Or.inl (by simp [h])
        · exact Or.inr h
    · simp only [spawnNormalScan, hq, Bool.not_eq_true, Bool.not_false, if_true,
        List.mem_cons] at hp
      rcases hp with hp | hp
      · exact Or.inr ⟨rand k, hp⟩
      · exact Or.inl (by simp [hp])

theorem mem_spawnClusterScan (x h : Int) (ps : List Pipe) (p : Pipe)
    (hp : p ∈ spawnClusterScan x h ps) :
    p ∈ ps ∨ p = { x := x, height := h, active := true, scored := false } := by
  induction ps with
  | nil => simp [spawnClusterScan] at hp
  | cons q qs ih =>
    by_cases hq : q.active = true
    · simp only [spawnClusterScan, hq, Bool.not_true, Bool.false_eq_true, if_false,
        List.mem_cons] at hp
      rcases hp with hp | hp
      · exact Or.inl (by simp [hp])
      · rcases ih hp with h | h
        · exact Or.inl (by simp [h])
        · exact Or.inr h
    · simp only [spawnClusterScan, hq, Bool.not_eq_true, Bool.not_false, if_true,
        List.mem_cons] at hp
      rcases hp with hp | hp
      · exact Or.inr hp
      · exact Or.inl (by simp [hp])

theorem mem_spawnCluster (h : Int) (ps : List Pipe) (p : Pipe)
    (hp : p ∈ spawnCluster h ps) : p ∈ ps ∨ (p.height = h ∧ p.active = true) := by
  simp only [spawnCluster, List.range_succ, List.range_zero, List.nil_append, List.cons_append,
    List.foldl_cons, List.foldl_nil] at hp
  rcases mem_spawnClusterScan _ _ _ _ hp with h2 | h2
  · rcases mem_spawnClusterScan _ _ _ _ h2 with h1 | h1
    · rcases mem_spawnClusterScan _ _ _ _ h1 with h0 | h0
      · exact Or.inl h0
      · exact Or.inr (by simp [h0])
    · exact Or.inr (by simp [h1])
  · exact Or.inr (by simp [h2])

/-- C2 (as the code has it): for every value returned by `rand()` the height
`50 + rand() % (WINDOW_HEIGHT - PIPE_GAP - 100)` lies in `[50, 419]`, that is at
least 50 and below `50 + 370 = 420`; and every slot of the pool after the spawner
step either was in the pool before or is active with a height in that range. -/
theorem spawned_height_range :
    (∀ r : Nat, 50 ≤ gapHeight r ∧ gapHeight r < 50 + (WINDOW_HEIGHT - PIPE_GAP - 100) ∧
      gapHeight r ≤ 419) ∧
    (∀ (rand : Nat → Nat) (s : Game) (p : Pipe), p ∈ (spawner rand s).pipes →
      p ∈ s.pipes ∨ (p.active = true ∧ 50 ≤ p.height ∧ p.height ≤ 419)) := by
  refine ⟨fun r => ⟨(gapHeight_bounds r).1, ?_, (gapHeight_bounds r).2⟩, ?_⟩
  · have := (gapHeight_bounds r).2
    unfold WINDOW_HEIGHT PIPE_GAP
    omega
  · intro rand s p hp
    unfold spawner at hp
    simp only [] at hp
    split_ifs at hp
    all_goals first
      | exact Or.inl hp
      | (rcases mem_spawnNormalScan _ _ _ _ hp with h | ⟨r, h⟩
         · exact Or.inl h
         · exact Or.inr (by simp [h, gapHeight_bounds]))
      | (rcases mem_spawnCluster _ _ _ hp with h | ⟨h, ha⟩
         · exact Or.inl h
         · exact Or.inr (by simp [h, ha, gapHeight_bounds]))

theorem spawned_height_range_witness :
    ({ x := 1280, height := 419, active := true, scored := false } : Pipe) ∈
        (spawner (fun _ => 369) { startedGame with pipeTimer := 80 }).pipes ∧
      (({ x := 1280, height := 419, active := true, scored := false } : Pipe) ∈
          ({ startedGame with pipeTimer := 80 } : Game).pipes ∨
        (true = true ∧ (50 : Int) ≤ 419 ∧ (419 : Int) ≤ 419)) :=
  ⟨by decide, spawned_height_range.2 (fun _ => 369) { startedGame with pipeTimer := 80 }
    { x := 1280, height := 419, active := true, scored := false } (by decide)⟩

/-- C2 fails as stated: when `rand()` returns 369 the spawned obstacle gets gap
height 419, which is not below 370. -/
theorem gap_height_exceeds_370 :
    gapHeight 369 = 419 ∧ ¬ (gapHeight 369 < 720 - 250 - 100) ∧
      (spawner (fun _ => 369) { startedGame with pipeTimer := 80 }).pipes.head? =
        some { x := 1280, height := 419, active := true, scored := false } := by
  decide

/-! ## C5: restart and start -/

theorem resetGame_fresh (s : Game) (hlen : s.pipes.length = MAX_PIPES) :
    FreshlyReset (resetGame s) := by
  refine ⟨rfl, ?_, ?_, ?_, rfl, rfl, rfl, rfl⟩
  · simp [resetGame, hlen]
  · intro p hp
    simp only [resetGame, List.mem_map] at hp
    obtain ⟨q, -, rfl⟩ := hp
    rfl
  · simp [resetGame, WINDOW_HEIGHT]

/-- C5: from every `GameOver` state (`inMenu = 0`, `gameOver = 1`, a pool of
`MAX_PIPES = 20` slots, anything else arbitrary) each restart action, the `R`
key-down or a mouse click inside `restartButton`, yields score 0, all 20 slots
inactive, `birdY = 360`, velocity 0, `pipeTimer = 0`, both counters 0 and the
mode `Playing`.  The start click in the menu runs the same `resetGame`, with the
same result on these variables, clears `inMenu` and leaves `gameOver` as it is
(0 in the menu, so the mode is `Playing`). -/
theorem restart_resets (s : Game) (hlen : s.pipes.length = MAX_PIPES) :
    (s.inMenu = false → s.gameOver = true →
      ∀ e : Event, (e = Event.keyDown Keycode.SDLK_r ∨
          ∃ mx my, e = Event.mouseButtonDown mx my ∧ inButton restartButton mx my = true) →
        FreshlyReset (handleEvent s e) ∧ (handleEvent s e).inMenu = false ∧
          (handleEvent s e).gameOver = false ∧
          handleEvent s e = { resetGame s with gameOver := false }) ∧
    (s.inMenu = true →
      ∀ mx my : Int, inButton startButton mx my = true →
        FreshlyReset (handleEvent s (Event.mouseButtonDown mx my)) ∧
          (handleEvent s (Event.mouseButtonDown mx my)).inMenu = false ∧
          (handleEvent s (Event.mouseButtonDown mx my)).gameOver = s.gameOver ∧
          handleEvent s (Event.mouseButtonDown mx my) = resetGame { s with inMenu := false }) := by
  constructor
  · intro hm hg e he
    have key : handleEvent s e = { resetGame s with gameOver := false } := by
      rcases he with rfl | ⟨mx, my, rfl, hb⟩
      · simp [handleEvent, hm, hg]
      · simp [handleEvent, hm, hg, hb]
    rw [key]
    exact ⟨resetGame_fresh s hlen, hm, rfl, rfl⟩
  · intro hm mx my hb
    have key : handleEvent s (Event.mouseButtonDown mx my) = resetGame { s with inMenu := false } := by
      simp [handleEvent, hm, hb]
    rw [key]
    exact ⟨resetGame_fresh { s with inMenu := false } hlen, rfl, rfl, rfl⟩

theorem restart_resets_witness :
    FreshlyReset (handleEvent crashedGame (Event.keyDown Keycode.SDLK_r)) ∧
      (handleEvent crashedGame (Event.keyDown Keycode.SDLK_r)).inMenu = false ∧
      (handleEvent crashedGame (Event.keyDown Keycode.SDLK_r)).gameOver = false ∧
      handleEvent crashedGame (Event.keyDown Keycode.SDLK_r) =
        { resetGame crashedGame with gameOver := false } :=
  (restart_resets crashedGame (by decide)).1 rfl rfl (Event.keyDown Keycode.SDLK_r) (Or.inl rfl)

/-! ## C8, C9: the rectangle test -/

/-- C8: for rectangles of non-negative width and height, `checkCollision a b`
holds exactly when the closed x-ranges `[a.x, a.x + a.w]`, `[b.x, b.x + b.w]`
share a point and the closed y-ranges share a point.  In particular rectangles
touching along a vertical edge with the same y-range are reported overlapping,
and rectangles separated by a positive gap on either axis are not; zero widths
and heights are covered by the same statement. -/
theorem checkCollision_closed_overlap (a b : SDL_Rect) (haw : 0 ≤ a.w) (hah : 0 ≤ a.h)
    (hbw : 0 ≤ b.w) (hbh : 0 ≤ b.h) :
    (checkCollision a b = true ↔
      (∃ t : Int, a.x ≤ t ∧ t ≤ a.x + a.w ∧ b.x ≤ t ∧ t ≤ b.x + b.w) ∧
      (∃ u : Int, a.y ≤ u ∧ u ≤ a.y + a.h ∧ b.y ≤ u ∧ u ≤ b.y + b.h)) ∧
    (a.x + a.w = b.x → a.y = b.y → a.h = b.h → checkCollision a b = true) ∧
    (a.x + a.w < b.x ∨ b.x + b.w < a.x ∨ a.y + a.h < b.y ∨ b.y + b.h < a.y →
      checkCollision a b = false) := by
  refine ⟨?_, ?_, ?_⟩
  · rw [checkCollision_iff]
    constructor
    · rintro ⟨⟨h1, h2⟩, h3, h4⟩
      exact ⟨⟨max a.x b.x, le_max_left _ _, by omega, le_max_right _ _, by omega⟩,
        ⟨max a.y b.y, le_max_left _ _, by omega, le_max_right _ _, by omega⟩⟩
    · rintro ⟨⟨t, h1, h2, h3, h4⟩, u, h5, h6, h7, h8⟩
      exact ⟨⟨by omega, by omega⟩, by omega, by omega⟩
  · intro h1 h2 h3
    rw [checkCollision_iff]
    exact ⟨⟨by omega, by omega⟩, by omega, by omega⟩
  · intro h
    rw [← Bool.not_eq_true, checkCollision_iff]
    omega

theorem checkCollision_closed_overlap_witness :
    (checkCollision ⟨0, 0, 10, 10⟩ ⟨10, 0, 10, 10⟩ = true ↔
      (∃ t : Int, 0 ≤ t ∧ t ≤ 0 + 10 ∧ 10 ≤ t ∧ t ≤ 10 + 10) ∧
      (∃ u : Int, 0 ≤ u ∧ u ≤ 0 + 10 ∧ 0 ≤ u ∧ u ≤ 0 + 10)) ∧
    ((0 : Int) + 10 = 10 → (0 : Int) = 0 → (10 : Int) = 10 →
      checkCollision ⟨0, 0, 10, 10⟩ ⟨10, 0, 10, 10⟩ = true) ∧
    ((0 : Int) + 10 < 10 ∨ (10 : Int) + 10 < 0 ∨ (0 : Int) + 10 < 0 ∨ (0 : Int) + 10 < 0 →
      checkCollision ⟨0, 0, 10, 10⟩ ⟨10, 0, 10, 10⟩ = false) :=
  checkCollision_closed_overlap ⟨0, 0, 10, 10⟩ ⟨10, 0, 10, 10⟩ (by decide) (by decide)
    (by decide) (by decide)

/-- C9: `checkCollision` is symmetric in its two rectangles, for all integer
coordinates and sizes. -/
theorem checkCollision_symm (a b : SDL_Rect) : checkCollision a b = checkCollision b a := by
  rw [Bool.eq_iff_iff, checkCollision_iff, checkCollision_iff]
  tauto

/-! ## C10: dash -/

theorem frame_pipes_playing (rand : Nat → Nat) (s : Game) (events : List Event)
    (shiftHeld : Bool) (hm : s.inMenu = false) (hg : s.gameOver = false) :
    (frame rand s events shiftHeld).pipes =
      (spawner rand (physics (events.foldl handleEvent s) shiftHeld)).pipes.map
        (movePipe (birdRect (physics (events.foldl handleEvent s) shiftHeld).birdRectY)
          (if shiftHeld then dashSpeed else pipeSpeed)) := by
  obtain ⟨e1, e2, -⟩ := events_playing events s hm hg
  rw [frame, simulate_playing _ _ _ e1 e2]

/-- C10: in `Playing`, whatever the prior velocity and whatever events the frame
handles (a space key-down included), a frame on which shift is held ends with
`birdVelocity = 0` and `birdY` unchanged, and every slot that is active when the
movement loop starts (the pool left by the spawner) has its `x` lowered by
exactly 12; on a frame without shift it is lowered by exactly 3. -/
theorem dash_pins_velocity (rand : Nat → Nat) (s : Game) (events : List Event)
    (shiftHeld : Bool) (hm : s.inMenu = false) (hg : s.gameOver = false) :
    (shiftHeld = true →
      (frame rand s events shiftHeld).birdVelocity = 0 ∧
      (frame rand s events shiftHeld).birdY = s.birdY) ∧
    (∀ (i : Nat) (p : Pipe),
      (spawner rand (physics (events.foldl handleEvent s) shiftHeld)).pipes[i]? = some p →
      p.active = true →
      ∃ q, (frame rand s events shiftHeld).pipes[i]? = some q ∧
        q.x = p.x - (if shiftHeld then 12 else 3)) := by
  constructor
  · intro hs
    have hv : (frame rand s events shiftHeld).birdVelocity = 0 := by
      rw [frame_birdVelocity_playing rand s events shiftHeld hm hg, if_pos hs]
    refine ⟨hv, ?_⟩
    rw [frame_birdY_playing rand s events shiftHeld hm hg, hv, add_zero]
  · intro i p hi hp
    rw [frame_pipes_playing rand s events shiftHeld hm hg, List.getElem?_map, hi]
    refine ⟨_, rfl, ?_⟩
    cases shiftHeld <;> simp [movePipe, hp, dashSpeed, pipeSpeed]

theorem dash_pins_velocity_witness :
    (true = true →
      (frame (fun _ => 0) midGame [Event.keyDown Keycode.SDLK_SPACE] true).birdVelocity = 0 ∧
      (frame (fun _ => 0) midGame [Event.keyDown Keycode.SDLK_SPACE] true).birdY
        = midGame.birdY) ∧
    (∀ (i : Nat) (p : Pipe),
      (spawner (fun _ => 0)
        (physics ([Event.keyDown Keycode.SDLK_SPACE].foldl handleEvent midGame) true)).pipes[i]?
          = some p →
      p.active = true →
      ∃ q, (frame (fun _ => 0) midGame [Event.keyDown Keycode.SDLK_SPACE] true).pipes[i]?
          = some q ∧
        q.x = p.x - (if true = true then 12 else 3)) :=
  dash_pins_velocity (fun _ => 0) midGame [Event.keyDown Keycode.SDLK_SPACE] true rfl rfl

/-! ## Slots that the spawner leaves alone -/

theorem spawnNormalScan_active (rand : Nat → Nat) (ps : List Pipe) (k i : Nat) (p : Pipe)
    (hi : ps[i]? = some p) (hp : p.active = true) :
    (spawnNormalScan rand ps k).1[i]? = some p := by
  induction ps generalizing i with
  | nil => simp at hi
  | cons q qs ih =>
    cases i with
    | zero =>
      simp only [List.getElem?_cons_zero, Option.some.injEq] at hi
      subst hi
      simp [spawnNormalScan, hp]
    | succ j =>
      simp only [List.getElem?_cons_succ] at hi
      by_cases hq : q.active = true
      · simp [spawnNormalScan, hq, ih j hi]
      · simp [spawnNormalScan, hq, hi]

theorem spawnClusterScan_active (x h : Int) (ps : List Pipe) (i : Nat) (p : Pipe)
    (hi : ps[i]? = some p) (hp : p.active = true) :
    (spawnClusterScan x h ps)[i]? = some p := by
  induction ps generalizing i with
  | nil => simp at hi
  | cons q qs ih =>
    cases i with
    | zero =>
      simp only [List.getElem?_cons_zero, Option.some.injEq] at hi
      subst hi
      simp [spawnClusterScan, hp]
    | succ j =>
      simp only [List.getElem?_cons_succ] at hi
      by_cases hq : q.active = true
      · simp [spawnClusterScan, hq, ih j hi]
      · simp [spawnClusterScan, hq, hi]

theorem spawner_active (rand : Nat → Nat) (s : Game) (i : Nat) (p : Pipe)
    (hi : s.pipes[i]? = some p) (hp : p.active = true) :
    (spawner rand s).pipes[i]? = some p := by
  unfold spawner
  simp only []
  split_ifs
  all_goals first
    | exact hi
    | exact spawnNormalScan_active _ _ _ _ _ hi hp
    | (simp only [spawnCluster, List.range_succ, List.range_zero, List.nil_append,
        List.cons_append, List.foldl_cons, List.foldl_nil]
       exact spawnClusterScan_active _ _ _ _ _
        (spawnClusterScan_active _ _ _ _ _ (spawnClusterScan_active _ _ _ _ _ hi hp) hp) hp)

theorem simulate_scored_persists (rand : Nat → Nat) (s : Game) (shiftHeld : Bool) (i : Nat)
    (p : Pipe) (hi : s.pipes[i]? = some p) (ha : p.active = true) (hs : p.scored = true) :
    ∃ q, (simulate rand s shiftHeld).pipes[i]? = some q ∧ q.scored = true := by
  by_cases hplay : s.inMenu = false ∧ s.gameOver = false
  · rw [simulate_playing rand s shiftHeld hplay.1 hplay.2]
    have h1 : (spawner rand (physics s shiftHeld)).pipes[i]? = some p :=
      spawner_active rand _ i p (by rw [(physics_frame s shiftHeld).1]; exact hi) ha
    simp only [List.getElem?_map, h1, Option.map_some']
    exact ⟨_, rfl, by simp [movePipe, ha, hs]⟩
  · rw [simulate_idle rand s shiftHeld (by
      rcases Bool.eq_false_or_eq_true s.inMenu with h | h
      · exact Or.inl h
      · rcases Bool.eq_false_or_eq_true s.gameOver with h' | h'
        · exact Or.inr h'
        · exact absurd ⟨h, h'⟩ hplay)]
    exact ⟨p, hi, hs⟩

/-! ## C6: scoring -/

theorem ticks_scored_persists (rand : Nat → Nat) (dash : Nat → Bool) (i : Nat) (s : Game)
    (n : Nat) (hs : ∃ p, s.pipes[i]? = some p ∧ p.scored = true)
    (hact : ∀ k, k < n →
      ∃ p, (ticks rand dash s k).pipes[i]? = some p ∧ p.active = true) :
    ∃ p, (ticks rand dash s n).pipes[i]? = some p ∧ p.scored = true := by
  induction n with
  | zero => exact hs
  | succ m ih =>
    obtain ⟨p, hp, hsc⟩ := ih (fun k hk => hact k (by omega))
    obtain ⟨q, hq, ha⟩ := hact m (by omega)
    rw [hp] at hq
    cases hq
    exact simulate_scored_persists rand _ (dash m) i p hp ha hsc

theorem slotCounted_scored (rand : Nat → Nat) (s : Game) (shiftHeld : Bool) (i : Nat)
    (h : slotCounted rand s shiftHeld i = true) :
    ∃ q, (simulate rand s shiftHeld).pipes[i]? = some q ∧ q.scored = true := by
  simp only [slotCounted, Bool.and_eq_true, Bool.not_eq_true'] at h
  obtain ⟨⟨hm, hg⟩, hc⟩ := h
  rw [simulate_playing rand s shiftHeld hm hg]
  cases hp : (spawner rand (physics s shiftHeld)).pipes[i]? with
  | none => simp [hp] at hc
  | some p =>
    simp only [hp, pipeScores, Bool.and_eq_true, Bool.not_eq_true'] at hc
    simp only [List.getElem?_map, hp, Option.map_some']
    exact ⟨_, rfl, by simp [movePipe, hc.1.1, hc.1.2, hc.2]⟩

theorem not_slotCounted_of_scored (rand : Nat → Nat) (s : Game) (shiftHeld : Bool) (i : Nat)
    (p : Pipe) (hi : s.pipes[i]? = some p) (ha : p.active = true) (hs : p.scored = true) :
    slotCounted rand s shiftHeld i = false := by
  have h1 : (spawner rand (physics s shiftHeld)).pipes[i]? = some p :=
    spawner_active rand _ i p (by rw [(physics_frame s shiftHeld).1]; exact hi) ha
  simp [slotCounted, h1, pipeScores, hs]

theorem counted_once (rand : Nat → Nat) (dash : Nat → Bool) (s : Game) (i t1 t2 : Nat)
    (ht : t1 < t2)
    (h1 : slotCounted rand (ticks rand dash s t1) (dash t1) i = true)
    (h2 : slotCounted rand (ticks rand dash s t2) (dash t2) i = true) :
    ∃ k, t1 < k ∧ k ≤ t2 ∧
      ∀ p, (ticks rand dash s k).pipes[i]? = some p → p.active = false := by
  by_contra hno
  have hact : ∀ k, t1 < k → k ≤ t2 →
      ∃ p, (ticks rand dash s k).pipes[i]? = some p ∧ p.active = true := by
    intro k hk1 hk2
    by_contra hk
    refine hno ⟨k, hk1, hk2, fun p hp => ?_⟩
    cases ha : p.active with
    | false => rfl
    | true => exact absurd ⟨p, hp, ha⟩ hk
  have hsc : ∀ d, t1 + 1 + d ≤ t2 →
      ∃ p, (ticks rand dash s (t1 + 1 + d)).pipes[i]? = some p ∧ p.scored = true := by
    intro d
    induction d with
    | zero =>
      intro _
      exact slotCounted_scored rand _ _ i h1
    | succ e ih =>
      intro he
      obtain ⟨p, hp, hs⟩ := ih (by omega)
      obtain ⟨q, hq, ha⟩ := hact (t1 + 1 + e) (by omega) (by omega)
      rw [hp] at hq
      cases hq
      exact simulate_scored_persists rand _ (dash (t1 + 1 + e)) i p hp ha hs
  obtain ⟨p, hp, hs⟩ := hsc (t2 - t1 - 1) (by omega)
  rw [show t1 + 1 + (t2 - t1 - 1) = t2 by omega] at hp
  obtain ⟨q, hq, ha⟩ := hact t2 ht (le_refl _)
  rw [hp] at hq
  cases hq
  rw [not_slotCounted_of_scored rand _ (dash t2) i p hp ha hs] at h2
  exact Bool.false_ne_true h2

/-- C6: one tick in `Playing` raises `score` by exactly the number of slots that
at the movement loop are active, not yet scored, and whose score zone at the
moved position the player rectangle overlaps (`pipeScores`, line 231).  A slot
that is active and already scored is left as it is by the spawner, is not
counted even when its zone is overlapped, and is still scored after the tick.
Over any number of further ticks a scored slot stays scored for as long as it
stays active; and a slot counted on two different ticks has been inactive at
some point in between, so between its spawn and its deactivation an obstacle
adds at most 1 to the score. -/
theorem scoring_idempotent (rand : Nat → Nat) (s : Game) (shiftHeld : Bool)
    (hm : s.inMenu = false) (hg : s.gameOver = false) :
    ((simulate rand s shiftHeld).score = s.score +
      (((spawner rand (physics s shiftHeld)).pipes.filter
        (pipeScores (birdRect (truncToInt (simulate rand s shiftHeld).birdY))
          (if shiftHeld then 12 else 3))).length : Int)) ∧
    (∀ (i : Nat) (p : Pipe), s.pipes[i]? = some p → p.active = true → p.scored = true →
      (spawner rand (physics s shiftHeld)).pipes[i]? = some p ∧
      pipeScores (birdRect (truncToInt (simulate rand s shiftHeld).birdY))
        (if shiftHeld then 12 else 3) p = false ∧
      slotCounted rand s shiftHeld i = false ∧
      ∃ q, (simulate rand s shiftHeld).pipes[i]? = some q ∧ q.scored = true) ∧
    (∀ (dash : Nat → Bool) (i n : Nat),
      (∃ p, s.pipes[i]? = some p ∧ p.scored = true) →
      (∀ k, k < n → ∃ p, (ticks rand dash s k).pipes[i]? = some p ∧ p.active = true) →
      ∃ p, (ticks rand dash s n).pipes[i]? = some p ∧ p.scored = true) ∧
    (∀ (dash : Nat → Bool) (i t1 t2 : Nat), t1 < t2 →
      slotCounted rand (ticks rand dash s t1) (dash t1) i = true →
      slotCounted rand (ticks rand dash s t2) (dash t2) i = true →
      ∃ k, t1 < k ∧ k ≤ t2 ∧
        ∀ p, (ticks rand dash s k).pipes[i]? = some p → p.active = false) := by
  have hy : truncToInt (simulate rand s shiftHeld).birdY = (physics s shiftHeld).birdRectY := by
    rw [simulate_playing rand s shiftHeld hm hg]
    simp only [(spawner_frame _ _).1, physics_birdRectY]
  have hv : (if shiftHeld = true then (12 : Int) else 3) =
      (if shiftHeld = true then dashSpeed else pipeSpeed) := by
    cases shiftHeld <;> rfl
  rw [hy, hv]
  refine ⟨?_, ?_, ?_, ?_⟩
  · rw [simulate_playing rand s shiftHeld hm hg]
  · intro i p hi ha hs
    exact ⟨spawner_active rand _ i p (by rw [(physics_frame s shiftHeld).1]; exact hi) ha,
      by simp [pipeScores, hs], not_slotCounted_of_scored rand s shiftHeld i p hi ha hs,
      simulate_scored_persists rand s shiftHeld i p hi ha hs⟩
  · intro dash i n hs hact
    exact ticks_scored_persists rand dash i s n hs hact
  · intro dash i t1 t2 ht h1 h2
    exact counted_once rand dash s i t1 t2 ht h1 h2

theorem scoring_idempotent_witness :
    (simulate (fun _ => 0) midGame false).score = midGame.score +
      (((spawner (fun _ => 0) (physics midGame false)).pipes.filter
        (pipeScores (birdRect (truncToInt (simulate (fun _ => 0) midGame false).birdY))
          (if false = true then 12 else 3))).length : Int) :=
  (scoring_idempotent (fun _ => 0) midGame false rfl rfl).1

/-- On the tick from `midGame` the second pipe is counted and the first, already
scored though its zone is overlapped, is not: the score goes from 1 to 2. -/
theorem midGame_tick_score :
    midGame.score = 1 ∧ (simulate (fun _ => 0) midGame false).score = 2 ∧
      slotCounted (fun _ => 0) midGame false 0 = false ∧
      slotCounted (fun _ => 0) midGame false 1 = true ∧
      checkCollision (birdRect 303) (scoreZone (260 - 3)) = true := by
  decide!

/-! ## C7: when a tick ends the game -/

/-- C7: after the simulation block has run in `Playing`, `gameOver` is set exactly
when the updated position `y` satisfies `y <= 0` or `y + 60 >= 720`, or some
slot that is active at the movement loop has, at its moved position, its top
rectangle `(x, 0, 100, height)` or its bottom rectangle
`(x, height + 250, 100, 720 - height - 250)` reported by `checkCollision`
against the player rectangle `(250, (int)y, 106, 60)`.  The position is the
old position plus the new velocity, unclamped. -/
theorem gameOver_iff_fatal (rand : Nat → Nat) (s : Game) (shiftHeld : Bool)
    (hm : s.inMenu = false) (hg : s.gameOver = false) :
    ((simulate rand s shiftHeld).gameOver = true ↔
      ((simulate rand s shiftHeld).birdY ≤ 0 ∨ (simulate rand s shiftHeld).birdY + 60 ≥ 720 ∨
        ∃ p ∈ (spawner rand (physics s shiftHeld)).pipes, p.active = true ∧
          (checkCollision ⟨250, truncToInt (simulate rand s shiftHeld).birdY, 106, 60⟩
              ⟨p.x - (if shiftHeld then 12 else 3), 0, 100, p.height⟩ = true ∨
            checkCollision ⟨250, truncToInt (simulate rand s shiftHeld).birdY, 106, 60⟩
              ⟨p.x - (if shiftHeld then 12 else 3), p.height + 250, 100,
                720 - p.height - 250⟩ = true))) ∧
    (simulate rand s shiftHeld).birdY = s.birdY + (simulate rand s shiftHeld).birdVelocity := by
  have hv : (if shiftHeld = true then (12 : Int) else 3) =
      (if shiftHeld = true then dashSpeed else pipeSpeed) := by
    cases shiftHeld <;> rfl
  rw [hv, simulate_playing rand s shiftHeld hm hg]
  simp only [(spawner_frame _ _).1, (spawner_frame _ _).2.1]
  refine ⟨?_, physics_birdY s shiftHeld⟩
  rw [Bool.or_eq_true, physics_gameOver, hg, Bool.false_or, decide_eq_true_eq, List.any_eq_true,
    ← physics_birdRectY]
  simp only [pipeHits, Bool.and_eq_true, Bool.or_eq_true, topPipe, bottomPipe, birdRect,
    PIPE_WIDTH, PIPE_GAP, WINDOW_HEIGHT]
  rw [or_assoc]

theorem gameOver_iff_fatal_witness :
    (simulate (fun _ => 0) midGame false).birdY =
      midGame.birdY + (simulate (fun _ => 0) midGame false).birdVelocity :=
  (gameOver_iff_fatal (fun _ => 0) midGame false rfl rfl).2

/-! ## C4: the spawn decision -/

theorem split_first_inactive (n : Nat) (ps : List Pipe)
    (h : n + 1 ≤ (ps.filter (fun p => !p.active)).length) :
    ∃ pre p post, ps = pre ++ p :: post ∧ (∀ q ∈ pre, q.active = true) ∧ p.active = false ∧
      n ≤ (post.filter (fun p => !p.active)).length := by
  induction ps with
  | nil => simp at h
  | cons q qs ih =>
    by_cases hq : q.active = true
    · have h' : n + 1 ≤ (qs.filter (fun p => !p.active)).length := by
        simpa [List.filter_cons, hq] using h
      obtain ⟨pre, p, post, e, hpre, hp, hn⟩ := ih h'
      refine ⟨q :: pre, p, post, by simp [e], ?_, hp, hn⟩
      intro r hr
      rcases List.mem_cons.1 hr with rfl | hr
      · exact hq
      · exact hpre r hr
    · have hq' : q.active = false := by simpa using hq
      refine ⟨[], q, qs, rfl, by simp, hq', ?_⟩
      have : (List.filter (fun p => !p.active) (q :: qs)).length =
          (List.filter (fun p => !p.active) qs).length + 1 := by
        simp [List.filter_cons, hq']
      omega

theorem spawnClusterScan_skip (x h : Int) (pre l : List Pipe)
    (hpre : ∀ q ∈ pre, q.active = true) :
    spawnClusterScan x h (pre ++ l) = pre ++ spawnClusterScan x h l := by
  induction pre with
  | nil => rfl
  | cons q qs ih =>
    have hq : q.active = true := hpre q (by simp)
    have := ih (fun r hr => hpre r (by simp [hr]))
    simp [spawnClusterScan, hq, this]

theorem spawnClusterScan_split (x h : Int) (pre : List Pipe) (p : Pipe) (post : List Pipe)
    (hpre : ∀ q ∈ pre, q.active = true) (hp : p.active = false) :
    spawnClusterScan x h (pre ++ p :: post) =
      pre ++ { x := x, height := h, active := true, scored := false } :: post := by
  rw [spawnClusterScan_skip x h pre _ hpre]
  simp [spawnClusterScan, hp]

theorem spawnNormalScan_split (rand : Nat → Nat) (k : Nat) (pre : List Pipe) (p : Pipe)
    (post : List Pipe) (hpre : ∀ q ∈ pre, q.active = true) (hp : p.active = false) :
    spawnNormalScan rand (pre ++ p :: post) k =
      (pre ++ ⟨WINDOW_WIDTH, gapHeight (rand k), true, false⟩ :: post, k + 1) := by
  induction pre with
  | nil => simp [spawnNormalScan, hp]
  | cons q qs ih =>
    have hq : q.active = true := hpre q (by simp)
    have := ih (fun r hr => hpre r (by simp [hr]))
    simp [spawnNormalScan, hq, this]

theorem spawnCluster_split (h : Int) (a b c d : List Pipe) (p0 p1 p2 : Pipe)
    (ha : ∀ q ∈ a, q.active = true) (hb : ∀ q ∈ b, q.active = true)
    (hc : ∀ q ∈ c, q.active = true)
    (h0 : p0.active = false) (h1 : p1.active = false) (h2 : p2.active = false) :
    spawnCluster h (a ++ p0 :: (b ++ p1 :: (c ++ p2 :: d))) =
      a ++ { x := 1280, height := h, active := true, scored := false } ::
        (b ++ { x := 1280 + 110, height := h, active := true, scored := false } ::
          (c ++ { x := 1280 + 220, height := h, active := true, scored := false } :: d)) := by
  simp only [spawnCluster, List.range_succ, List.range_zero, List.nil_append, List.cons_append,
    List.foldl_cons, List.foldl_nil]
  rw [spawnClusterScan_split _ _ a p0 _ ha h0]
  have e1 : ∀ (n : Pipe) (l : List Pipe), a ++ n :: (b ++ p1 :: l) = (a ++ n :: b) ++ p1 :: l := by
    intro n l; simp
  rw [e1, spawnClusterScan_split _ _ (a ++ _ :: b) p1 _ (by
    intro q hq
    rcases List.mem_append.1 hq with hq | hq
    · exact ha q hq
    · rcases List.mem_cons.1 hq with rfl | hq
      · rfl
      · exact hb q hq) h1]
  have e2 : ∀ (n m : Pipe) (l : List Pipe),
      (a ++ n :: b) ++ m :: (c ++ p2 :: l) = ((a ++ n :: b) ++ m :: c) ++ p2 :: l := by
    intro n m l; simp
  rw [e2, spawnClusterScan_split _ _ _ p2 _ (by
    intro q hq
    rcases List.mem_append.1 hq with hq | hq
    · rcases List.mem_append.1 hq with hq | hq
      · exact ha q hq
      · rcases List.mem_cons.1 hq with rfl | hq
        · rfl
        · exact hb q hq
    · rcases List.mem_cons.1 hq with rfl | hq
      · rfl
      · exact hc q hq) h2]
  simp [WINDOW_WIDTH, PIPE_WIDTH]

/-- C4: on a spawn event (the incremented `pipeTimer` exceeds 80) the timer is
reset and

* with `threePipeCooldown = 0`, `normalPipeCounter >= 3`, `rand() % 5 == 0` and
  three inactive slots: exactly the three lowest inactive slots are replaced by
  active, unscored obstacles with one shared height (from the second `rand()`)
  at `x = 1280, 1390, 1500`, every other slot is unchanged, the streak counter
  becomes 0 and the cooldown 3;
* with `threePipeCooldown = 0` and the streak below 3 or the roll non-zero, and
  an inactive slot: exactly the lowest inactive slot is replaced by one obstacle
  at `x = 1280`, the streak counter grows by 1 and the cooldown stays 0;
* with `threePipeCooldown > 0` and an inactive slot, whatever `rand()` returns
  (its first value is used as the height, no roll is made): exactly the lowest
  inactive slot is replaced by one obstacle at `x = 1280`, the cooldown drops by
  1 and the streak counter grows by 1. -/
theorem spawn_decision (rand : Nat → Nat) (s : Game) (hfire : s.pipeTimer + 1 > 80) :
    (spawner rand s).pipeTimer = 0 ∧
    (s.threePipeCooldown = 0 → s.normalPipeCounter ≥ 3 → rand s.randPos % 5 = 0 →
      3 ≤ (s.pipes.filter (fun p => !p.active)).length →
      ∃ a p0 b p1 c p2 d, s.pipes = a ++ p0 :: (b ++ p1 :: (c ++ p2 :: d)) ∧
        (∀ q ∈ a, q.active = true) ∧ (∀ q ∈ b, q.active = true) ∧ (∀ q ∈ c, q.active = true) ∧
        p0.active = false ∧ p1.active = false ∧ p2.active = false ∧
        (spawner rand s).pipes =
          a ++ ⟨1280, gapHeight (rand (s.randPos + 1)), true, false⟩ ::
            (b ++ ⟨1280 + 110, gapHeight (rand (s.randPos + 1)), true, false⟩ ::
              (c ++ ⟨1280 + 220, gapHeight (rand (s.randPos + 1)), true, false⟩ :: d)) ∧
        (spawner rand s).normalPipeCounter = 0 ∧ (spawner rand s).threePipeCooldown = 3) ∧
    (s.threePipeCooldown = 0 → ¬ (s.normalPipeCounter ≥ 3 ∧ rand s.randPos % 5 = 0) →
      1 ≤ (s.pipes.filter (fun p => !p.active)).length →
      ∃ pre p post, s.pipes = pre ++ p :: post ∧ (∀ q ∈ pre, q.active = true) ∧
        p.active = false ∧
        (spawner rand s).pipes = pre ++
          ⟨1280, gapHeight (rand (if s.normalPipeCounter ≥ 3 then s.randPos + 1 else s.randPos)),
            true, false⟩ :: post ∧
        (spawner rand s).normalPipeCounter = s.normalPipeCounter + 1 ∧
        (spawner rand s).threePipeCooldown = 0) ∧
    (s.threePipeCooldown > 0 → 1 ≤ (s.pipes.filter (fun p => !p.active)).length →
      ∃ pre p post, s.pipes = pre ++ p :: post ∧ (∀ q ∈ pre, q.active = true) ∧
        p.active = false ∧
        (spawner rand s).pipes = pre ++ ⟨1280, gapHeight (rand s.randPos), true, false⟩ :: post ∧
        (spawner rand s).threePipeCooldown = s.threePipeCooldown - 1 ∧
        (spawner rand s).normalPipeCounter = s.normalPipeCounter + 1) := by
  refine ⟨?_, ?_, ?_, ?_⟩
  · unfold spawner
    simp only [hfire, if_true]
    split_ifs <;> rfl
  · intro hc hn hr hfree
    obtain ⟨a, p0, l0, e0, ha, h0, f0⟩ := split_first_inactive 2 s.pipes hfree
    obtain ⟨b, p1, l1, e1, hb, h1, f1⟩ := split_first_inactive 1 l0 f0
    obtain ⟨c, p2, d, e2, hcc, h2, -⟩ := split_first_inactive 0 l1 f1
    subst e2 e1
    refine ⟨a, p0, b, p1, c, p2, d, e0, ha, hb, hcc, h0, h1, h2, ?_⟩
    have hc' : ¬ s.threePipeCooldown > 0 := by omega
    unfold spawner
    simp only [hfire, if_true, hc', if_false, hn, hr, and_self, e0]
    exact ⟨spawnCluster_split _ a b c d p0 p1 p2 ha hb hcc h0 h1 h2, trivial⟩
  · intro hc hno hfree
    obtain ⟨pre, p, post, e, hpre, hp, -⟩ := split_first_inactive 0 s.pipes hfree
    refine ⟨pre, p, post, e, hpre, hp, ?_⟩
    have hc' : ¬ s.threePipeCooldown > 0 := by omega
    unfold spawner
    simp only [hfire, if_true, hc', if_false, hno, e,
      spawnNormalScan_split rand _ pre p post hpre hp]
    exact ⟨rfl, trivial, hc⟩
  · intro hc hfree
    obtain ⟨pre, p, post, e, hpre, hp, -⟩ := split_first_inactive 0 s.pipes hfree
    refine ⟨pre, p, post, e, hpre, hp, ?_⟩
    unfold spawner
    simp only [hfire, if_true, hc, e, spawnNormalScan_split rand _ pre p post hpre hp]
    exact ⟨rfl, trivial, trivial⟩

theorem spawn_decision_witness :
    ∃ a p0 b p1 c p2 d, midGame.pipes = a ++ p0 :: (b ++ p1 :: (c ++ p2 :: d)) ∧
      (∀ q ∈ a, q.active = true) ∧ (∀ q ∈ b, q.active = true) ∧ (∀ q ∈ c, q.active = true) ∧
      p0.active = false ∧ p1.active = false ∧ p2.active = false ∧
      (spawner (fun _ => 0) midGame).pipes =
        a ++ ⟨1280, gapHeight ((fun _ => 0) (midGame.randPos + 1)), true, false⟩ ::
          (b ++ ⟨1280 + 110, gapHeight ((fun _ => 0) (midGame.randPos + 1)), true, false⟩ ::
            (c ++ ⟨1280 + 220, gapHeight ((fun _ => 0) (midGame.randPos + 1)), true, false⟩ :: d)) ∧
      (spawner (fun _ => 0) midGame).normalPipeCounter = 0 ∧
      (spawner (fun _ => 0) midGame).threePipeCooldown = 3 :=
  (spawn_decision (fun _ => 0) midGame (by decide)).2.1 rfl (by decide) (by decide) (by decide)

/-! ## C3: the cooldown after a cluster -/

theorem handleEvent_counters (s : Game) (e : Event) :
    ((handleEvent s e).normalPipeCounter = s.normalPipeCounter ∧
      (handleEvent s e).threePipeCooldown = s.threePipeCooldown) ∨
    ((handleEvent s e).normalPipeCounter = 0 ∧ (handleEvent s e).threePipeCooldown = 0) := by
  unfold handleEvent
  cases e <;> simp only [] <;> split_ifs <;> simp [resetGame]

theorem forcedSingles_events (events : List Event) (s : Game) :
    min (forcedSingles s) 3 ≤ forcedSingles (events.foldl handleEvent s) := by
  induction events generalizing s with
  | nil => exact min_le_left _ _
  | cons e es ih =>
    rw [List.foldl_cons]
    have h1 := ih (handleEvent s e)
    have h2 : min (forcedSingles s) 3 ≤ forcedSingles (handleEvent s e) := by
      have := handleEvent_counters s e
      unfold forcedSingles
      omega
    omega

/-- How the spawner moves the two counters, by the branch it takes. -/
theorem spawner_counters (rand : Nat → Nat) (s : Game) :
    (spawnBranch rand s = none ∧ forcedSingles (spawner rand s) = forcedSingles s) ∨
    (spawnBranch rand s = some SpawnBranch.cluster ∧ forcedSingles s = 0 ∧
      forcedSingles (spawner rand s) = 3) ∨
    (spawnBranch rand s = some SpawnBranch.single ∧
      forcedSingles s ≤ forcedSingles (spawner rand s) + 1) := by
  unfold spawnBranch spawner forcedSingles
  simp only []
  split_ifs with h1 h2 h3 h4 <;> simp <;> omega

/-- The branch label against what the spawner does to the pool. -/
theorem spawnBranch_pipes (rand : Nat → Nat) (s : Game) :
    (spawnBranch rand s = none → (spawner rand s).pipes = s.pipes) ∧
    (spawnBranch rand s = some SpawnBranch.cluster →
      (spawner rand s).pipes = spawnCluster (gapHeight (rand (s.randPos + 1))) s.pipes) ∧
    (spawnBranch rand s = some SpawnBranch.single →
      ∃ k, (spawner rand s).pipes = (spawnNormalScan rand s.pipes k).1) := by
  unfold spawnBranch spawner
  simp only []
  split_ifs <;> simp <;> exact ⟨_, rfl⟩

theorem frame_counters (rand : Nat → Nat) (s : Game) (events : List Event) (shiftHeld : Bool) :
    (frameBranch rand s events shiftHeld = none ∧
      forcedSingles (frame rand s events shiftHeld) =
        forcedSingles (events.foldl handleEvent s)) ∨
    (frameBranch rand s events shiftHeld = some SpawnBranch.cluster ∧
      forcedSingles (events.foldl handleEvent s) = 0 ∧
      forcedSingles (frame rand s events shiftHeld) = 3) ∨
    (frameBranch rand s events shiftHeld = some SpawnBranch.single ∧
      forcedSingles (events.foldl handleEvent s) ≤
        forcedSingles (frame rand s events shiftHeld) + 1) := by
  by_cases hplay : (events.foldl handleEvent s).inMenu = false ∧
      (events.foldl handleEvent s).gameOver = false
  · obtain ⟨g1, g2, g3, g4, g5, g6, g7, g8⟩ := physics_frame (events.foldl handleEvent s) shiftHeld
    have hb : frameBranch rand s events shiftHeld =
        spawnBranch rand (physics (events.foldl handleEvent s) shiftHeld) := by
      simp [frameBranch, hplay.1, hplay.2]
    have hf : forcedSingles (frame rand s events shiftHeld) =
        forcedSingles (spawner rand (physics (events.foldl handleEvent s) shiftHeld)) := by
      rw [frame, simulate_playing _ _ _ hplay.1 hplay.2]
      rfl
    have hp : forcedSingles (physics (events.foldl handleEvent s) shiftHeld) =
        forcedSingles (events.foldl handleEvent s) := by
      simp only [forcedSingles, g4, g5]
    rw [hb, hf, ← hp]
    exact spawner_counters rand _
  · left
    have hidle : (events.foldl handleEvent s).inMenu = true ∨
        (events.foldl handleEvent s).gameOver = true := by
      rcases Bool.eq_false_or_eq_true (events.foldl handleEvent s).inMenu with h | h
      · exact Or.inl h
      · rcases Bool.eq_false_or_eq_true (events.foldl handleEvent s).gameOver with h' | h'
        · exact Or.inr h'
        · exact absurd ⟨h, h'⟩ hplay
    constructor
    · rcases hidle with h | h <;> simp [frameBranch, h]
    · rw [frame, simulate_idle _ _ _ hidle]

theorem spawnTrace_forced (rand : Nat → Nat) (inputs : List (List Event × Bool)) (s : Game)
    (r j : Nat) (hr : r ≤ forcedSingles s) (hr3 : r ≤ 3) (hj : j < r) (b : SpawnBranch)
    (hb : (spawnTrace rand s inputs)[j]? = some b) : b = SpawnBranch.single := by
  induction inputs generalizing s r j with
  | nil => simp [spawnTrace] at hb
  | cons inp rest ih =>
    by_cases hrun : s.running = true
    · have hev := forcedSingles_events inp.1 s
      rcases frame_counters rand s inp.1 inp.2 with ⟨hn, hf⟩ | ⟨hc, h0, -⟩ | ⟨hs, hf⟩
      · simp only [spawnTrace, hrun, if_true, hn] at hb
        exact ih _ r j (by omega) hr3 hj hb
      · omega
      · simp only [spawnTrace, hrun, if_true, hs] at hb
        cases j with
        | zero =>
          simp only [List.getElem?_cons_zero, Option.some.injEq] at hb
          exact hb.symm
        | succ k =>
          simp only [List.getElem?_cons_succ] at hb
          exact ih _ (r - 1) k (by omega) (by omega) (by omega) hb
    · simp [spawnTrace, hrun] at hb

/-- C3: in every run of the game loop (any start state, in particular a reset
one, any events and dash input on every frame, any values of `rand()`), when a
spawn event takes the cluster branch, each of the next three spawn events of
the run takes a single-obstacle branch.  So two cluster events are never
consecutive and have at least three single-obstacle events between them. -/
theorem cluster_cooldown (rand : Nat → Nat) (s : Game) (inputs : List (List Event × Bool))
    (i : Nat) (hi : (spawnTrace rand s inputs)[i]? = some SpawnBranch.cluster) :
    ∀ j, 1 ≤ j → j ≤ 3 → ∀ b, (spawnTrace rand s inputs)[i + j]? = some b →
      b = SpawnBranch.single := by
  induction inputs generalizing s i with
  | nil => simp [spawnTrace] at hi
  | cons inp rest ih =>
    intro j hj1 hj3 b hb
    by_cases hrun : s.running = true
    · rcases frame_counters rand s inp.1 inp.2 with ⟨hn, -⟩ | ⟨hc, -, h3⟩ | ⟨hs, -⟩
      · simp only [spawnTrace, hrun, if_true, hn] at hi hb
        exact ih _ i hi j hj1 hj3 b hb
      · simp only [spawnTrace, hrun, if_true, hc] at hi hb
        cases i with
        | zero =>
          obtain ⟨k, rfl⟩ : ∃ k, j = k + 1 := ⟨j - 1, by omega⟩
          simp only [Nat.zero_add, List.getElem?_cons_succ] at hb
          exact spawnTrace_forced rand rest _ 3 k (by omega) (le_refl 3) (by omega) b hb
        | succ m =>
          rw [show m + 1 + j = (m + j) + 1 by omega] at hb
          simp only [List.getElem?_cons_succ] at hi hb
          exact ih _ m hi j hj1 hj3 b hb
      · simp only [spawnTrace, hrun, if_true, hs] at hi hb
        cases i with
        | zero => simp at hi
        | succ m =>
          rw [show m + 1 + j = (m + j) + 1 by omega] at hb
          simp only [List.getElem?_cons_succ] at hi hb
          exact ih _ m hi j hj1 hj3 b hb
    · simp [spawnTrace, hrun] at hi

set_option maxRecDepth 100000 in
theorem cluster_cooldown_witness :
    (spawnTrace (fun _ => 150) startedGame (List.replicate 405 ([], true)))[3]? =
        some SpawnBranch.cluster ∧
      (spawnTrace (fun _ => 150) startedGame (List.replicate 405 ([], true)))[4]? =
        some SpawnBranch.single ∧
      ∀ j, 1 ≤ j → j ≤ 3 → ∀ b,
        (spawnTrace (fun _ => 150) startedGame (List.replicate 405 ([], true)))[3 + j]? = some b →
          b = SpawnBranch.single :=
  have h3 : (spawnTrace (fun _ => 150) startedGame (List.replicate 405 ([], true)))[3]? =
      some SpawnBranch.cluster := by decide!
  ⟨h3, by decide!,
    cluster_cooldown (fun _ => 150) startedGame (List.replicate 405 ([], true)) 3 h3⟩

/-! ## C11: gravity accumulates while the block runs -/

theorem ticks_birdVelocity (rand : Nat → Nat) (s : Game) (N : Nat)
    (hplay : ∀ k, k < N → (ticks rand (fun _ => false) s k).inMenu = false ∧
      (ticks rand (fun _ => false) s k).gameOver = false) :
    (ticks rand (fun _ => false) s N).birdVelocity = s.birdVelocity + (1 / 4 : ℚ) * N := by
  induction N with
  | zero => simp [ticks]
  | succ n ih =>
    obtain ⟨hm, hg⟩ := hplay n (by omega)
    rw [ticks, simulate_playing _ _ _ hm hg]
    simp only [(spawner_frame _ _).2.1, physics_birdVelocity, Bool.false_eq_true, if_false,
      gravity]
    rw [ih (fun k hk => hplay k (by omega))]
    push_cast
    ring

theorem frames_birdVelocity (rand : Nat → Nat) (inp : Nat → List Event × Bool) (s : Game)
    (N : Nat)
    (hplay : ∀ k, k < N → (frames rand inp s k).inMenu = false ∧
      (frames rand inp s k).gameOver = false ∧ (inp k).2 = false ∧
      Event.keyDown Keycode.SDLK_SPACE ∉ (inp k).1) :
    (frames rand inp s N).birdVelocity = s.birdVelocity + (1 / 4 : ℚ) * N := by
  induction N with
  | zero => simp [frames]
  | succ n ih =>
    obtain ⟨hm, hg, hd, hf⟩ := hplay n (by omega)
    rw [frames, frame_birdVelocity_playing rand _ _ _ hm hg, hd, if_neg hf,
      ih (fun k hk => hplay k (by omega))]
    simp only [Bool.false_eq_true, if_false, gravity]
    push_cast
    ring

/-- C11 (as the code has it): starting from velocity 0, after `N` successive
frames on each of which the simulation block runs (the frame starts in
`Playing`), shift is not held and no space key-down is handled, `birdVelocity`
is exactly `0.25 * N`.  The gravity step of line 161 sits inside the block
guarded by line 156, so the proviso is needed: once `gameOver` is set the
velocity stays as it is. -/
theorem gravity_accumulates (rand : Nat → Nat) (inp : Nat → List Event × Bool) (s : Game)
    (N : Nat) (hv : s.birdVelocity = 0)
    (hplay : ∀ k, k < N → (frames rand inp s k).inMenu = false ∧
      (frames rand inp s k).gameOver = false ∧ (inp k).2 = false ∧
      Event.keyDown Keycode.SDLK_SPACE ∉ (inp k).1) :
    (frames rand inp s N).birdVelocity = (1 / 4 : ℚ) * N := by
  rw [frames_birdVelocity rand inp s N hplay, hv, zero_add]

theorem gravity_accumulates_witness :
    startedGame.birdVelocity = 0 ∧
      (frames (fun _ => 0) (fun _ => ([], false)) startedGame 48).birdVelocity
        = (1 / 4 : ℚ) * (48 : Nat) :=
  ⟨rfl, gravity_accumulates (fun _ => 0) (fun _ => ([], false)) startedGame 48 rfl (by decide!)⟩

/-- C11 fails as stated: from the freshly started game, velocity 0, frames
without any input set `gameOver` on frame 49, when the player reaches the
floor; after 60 frames the velocity is `12.25`, not `0.25 * 60 = 15`. -/
theorem gravity_stops_at_game_over :
    startedGame.inMenu = false ∧ startedGame.gameOver = false ∧
      startedGame.birdVelocity = 0 ∧
      (frames (fun _ => 0) (fun _ => ([], false)) startedGame 49).gameOver = true ∧
      (frames (fun _ => 0) (fun _ => ([], false)) startedGame 60).birdVelocity = 49 / 4 ∧
      (frames (fun _ => 0) (fun _ => ([], false)) startedGame 60).birdVelocity
        ≠ (1 / 4 : ℚ) * (60 : Nat) := by
  decide!

theorem frame_gameOver_false (rand : Nat → Nat) (s : Game) (events : List Event)
    (shiftHeld : Bool) (hm : s.inMenu = false) (hg : s.gameOver = false)
    (h : (frame rand s events shiftHeld).gameOver = false) :
    0 < (frame rand s events shiftHeld).birdY ∧
      (frame rand s events shiftHeld).birdY + 60 < 720 := by
  obtain ⟨e1, e2, -⟩ := events_playing events s hm hg
  rw [frame, simulate_playing _ _ _ e1 e2] at h ⊢
  simp only [(spawner_frame _ _).1] at h ⊢
  rw [Bool.or_eq_false_iff, physics_gameOver, e2, Bool.false_or, decide_eq_false_iff_not] at h
  have := h.1
  push_neg at this
  exact this

theorem frames_birdY (rand : Nat → Nat) (inp : Nat → List Event × Bool) (s : Game)
    (N : Nat) (hv : s.birdVelocity = 0)
    (hplay : ∀ k, k < N → (frames rand inp s k).inMenu = false ∧
      (frames rand inp s k).gameOver = false ∧ (inp k).2 = false ∧
      Event.keyDown Keycode.SDLK_SPACE ∉ (inp k).1) :
    (frames rand inp s N).birdY = s.birdY + (1 / 8 : ℚ) * N * (N + 1) := by
  induction N with
  | zero => simp [frames]
  | succ n ih =>
    obtain ⟨hm, hg, -, -⟩ := hplay n (by omega)
    have hvel : (frames rand inp s (n + 1)).birdVelocity = (1 / 4 : ℚ) * ((n + 1 : Nat) : ℚ) := by
      rw [frames_birdVelocity rand inp s (n + 1) hplay, hv, zero_add]
    rw [frames] at hvel ⊢
    rw [frame_birdY_playing rand _ _ _ hm hg, hvel, ih (fun k hk => hplay k (by omega))]
    push_cast
    ring

/-- The premise of a run of `N` playing ticks under gravity alone can be met
only for `N <= 73`: the player then falls `N (N + 1) / 8` px and leaves the
arena. -/
theorem gravity_run_bound (rand : Nat → Nat) (inp : Nat → List Event × Bool) (s : Game)
    (N : Nat) (hv : s.birdVelocity = 0)
    (hplay : ∀ k, k < N → (frames rand inp s k).inMenu = false ∧
      (frames rand inp s k).gameOver = false ∧ (inp k).2 = false ∧
      Event.keyDown Keycode.SDLK_SPACE ∉ (inp k).1) : N ≤ 73 := by
  by_contra hN
  have hp := fun k (hk : k < 74) => hplay k (by omega)
  have y1 := frames_birdY rand inp s 1 hv (fun k hk => hplay k (by omega))
  have y73 := frames_birdY rand inp s 73 hv (fun k hk => hplay k (by omega))
  have g1 := frame_gameOver_false rand _ (inp 0).1 (inp 0).2 (hp 0 (by omega)).1
    (hp 0 (by omega)).2.1 (hp 1 (by omega)).2.1
  have g73 := frame_gameOver_false rand _ (inp 72).1 (inp 72).2 (hp 72 (by omega)).1
    (hp 72 (by omega)).2.1 (hp 73 (by omega)).2.1
  change 0 < (frames rand inp s 1).birdY ∧ _ at g1
  change _ ∧ (frames rand inp s 73).birdY + 60 < 720 at g73
  rw [y1] at g1
  rw [y73] at g73
  have h1 := g1.1
  have h2 := g73.2
  norm_num at h1 h2
  linarith

/-- From the freshly started game the block runs on each of the first 48 ticks
without input, and the velocity after them is 12. -/
theorem gravity_run_example :
    (∀ k, k < 48 → (ticks (fun _ => 0) (fun _ => false) startedGame k).inMenu = false ∧
        (ticks (fun _ => 0) (fun _ => false) startedGame k).gameOver = false) ∧
      (ticks (fun _ => 0) (fun _ => false) startedGame 48).birdVelocity = 12 := by
  decide!

/-! ## C12: the pool bound and the full pool -/

theorem spawnNormalScan_full (rand : Nat → Nat) (ps : List Pipe) (k : Nat)
    (hfull : ∀ p ∈ ps, p.active = true) : spawnNormalScan rand ps k = (ps, k) := by
  induction ps with
  | nil => rfl
  | cons q qs ih =>
    have hq : q.active = true := hfull q (by simp)
    have := ih (fun r hr => hfull r (by simp [hr]))
    simp [spawnNormalScan, hq, this]

theorem spawnClusterScan_full (x h : Int) (ps : List Pipe)
    (hfull : ∀ p ∈ ps, p.active = true) : spawnClusterScan x h ps = ps := by
  have := spawnClusterScan_skip x h ps [] hfull
  simpa [spawnClusterScan] using this

theorem spawnCluster_full (h : Int) (ps : List Pipe)
    (hfull : ∀ p ∈ ps, p.active = true) : spawnCluster h ps = ps := by
  simp only [spawnCluster, List.range_succ, List.range_zero, List.nil_append, List.cons_append,
    List.foldl_cons, List.foldl_nil, spawnClusterScan_full _ _ ps hfull]

theorem spawner_full (rand : Nat → Nat) (s : Game) (hfull : ∀ p ∈ s.pipes, p.active = true) :
    (spawner rand s).pipes = s.pipes := by
  unfold spawner
  simp only []
  split_ifs <;>
    simp only [spawnNormalScan_full rand s.pipes _ hfull, spawnCluster_full _ s.pipes hfull]

theorem length_spawnNormalScan (rand : Nat → Nat) (ps : List Pipe) (k : Nat) :
    (spawnNormalScan rand ps k).1.length = ps.length := by
  induction ps with
  | nil => rfl
  | cons q qs ih => by_cases hq : q.active = true <;> simp [spawnNormalScan, hq, ih]

theorem length_spawnClusterScan (x h : Int) (ps : List Pipe) :
    (spawnClusterScan x h ps).length = ps.length := by
  induction ps with
  | nil => rfl
  | cons q qs ih => by_cases hq : q.active = true <;> simp [spawnClusterScan, hq, ih]

theorem length_spawner (rand : Nat → Nat) (s : Game) :
    (spawner rand s).pipes.length = s.pipes.length := by
  unfold spawner
  simp only []
  split_ifs <;>
    simp [length_spawnNormalScan, spawnCluster, List.range_succ, length_spawnClusterScan]

theorem length_handleEvent (s : Game) (e : Event) :
    (handleEvent s e).pipes.length = s.pipes.length := by
  unfold handleEvent
  cases e <;> simp only [] <;> split_ifs <;> simp [resetGame]

theorem length_events (events : List Event) (s : Game) :
    (events.foldl handleEvent s).pipes.length = s.pipes.length := by
  induction events generalizing s with
  | nil => rfl
  | cons e es ih => rw [List.foldl_cons, ih, length_handleEvent]

theorem length_simulate (rand : Nat → Nat) (s : Game) (shiftHeld : Bool) :
    (simulate rand s shiftHeld).pipes.length = s.pipes.length := by
  by_cases hplay : s.inMenu = false ∧ s.gameOver = false
  · rw [simulate_playing rand s shiftHeld hplay.1 hplay.2]
    simp [length_spawner, (physics_frame s shiftHeld).1]
  · rw [simulate_idle rand s shiftHeld (by
      rcases Bool.eq_false_or_eq_true s.inMenu with h | h
      · exact Or.inl h
      · rcases Bool.eq_false_or_eq_true s.gameOver with h' | h'
        · exact Or.inr h'
        · exact absurd ⟨h, h'⟩ hplay)]

theorem length_frame (rand : Nat → Nat) (s : Game) (events : List Event) (shiftHeld : Bool) :
    (frame rand s events shiftHeld).pipes.length = s.pipes.length := by
  rw [frame, length_simulate, length_events]

theorem length_run (rand : Nat → Nat) (inputs : List (List Event × Bool)) (s : Game) :
    (run rand s inputs).pipes.length = s.pipes.length := by
  induction inputs generalizing s with
  | nil => rfl
  | cons inp rest ih =>
    by_cases hr : s.running = true
    · simp only [run, hr, if_true, ih, length_frame]
    · simp [run, hr]

theorem activeCount_le_length (ps : List Pipe) : activeCount ps ≤ ps.length :=
  List.length_filter_le _ _

/-- C12: in every state reached by the game loop from the initial state (any
frames, any values of `rand()`) the pool has its 20 slots, so at most 20
obstacles are active; the scans visit the slots of the pool only and leave
their number unchanged; and when every slot is active, the spawner step,
whichever branch it takes (and each scan of a single or cluster spawn), leaves
the pool exactly as it was, without calling `rand()` for a single spawn. -/
theorem pool_bound_and_soft_cap (rand : Nat → Nat) :
    (∀ inputs : List (List Event × Bool),
      (run rand initGame inputs).pipes.length = MAX_PIPES ∧
      activeCount (run rand initGame inputs).pipes ≤ 20) ∧
    (∀ s : Game, (spawner rand s).pipes.length = s.pipes.length) ∧
    (∀ s : Game, (∀ p ∈ s.pipes, p.active = true) →
      (spawner rand s).pipes = s.pipes ∧
      (∀ k, spawnNormalScan rand s.pipes k = (s.pipes, k)) ∧
      (∀ h, spawnCluster h s.pipes = s.pipes)) := by
  refine ⟨fun inputs => ?_, fun s => length_spawner rand s, fun s hfull => ?_⟩
  · have hlen : (run rand initGame inputs).pipes.length = MAX_PIPES := by
      rw [length_run]; simp [initGame]
    exact ⟨hlen, by
      have := activeCount_le_length (run rand initGame inputs).pipes
      rw [hlen] at this
      exact this⟩
  · exact ⟨spawner_full rand s hfull, fun k => spawnNormalScan_full rand s.pipes k hfull,
      fun h => spawnCluster_full h s.pipes hfull⟩

theorem pool_bound_and_soft_cap_witness :
    (spawner (fun _ => 0) fullPoolGame).pipes = fullPoolGame.pipes ∧
      (∀ k, spawnNormalScan (fun _ => 0) fullPoolGame.pipes k = (fullPoolGame.pipes, k)) ∧
      (∀ h, spawnCluster h fullPoolGame.pipes = fullPoolGame.pipes) :=
  (pool_bound_and_soft_cap (fun _ => 0)).2.2 fullPoolGame (by decide)

/-- On the tick from `fullPoolGame` the spawner takes the cluster branch: the
pool is unchanged, the timer is reset and the counters are updated. -/
theorem fullPool_cluster_example :
    spawnBranch (fun _ => 0) fullPoolGame = some SpawnBranch.cluster ∧
      (spawner (fun _ => 0) fullPoolGame).pipes = fullPoolGame.pipes ∧
      (spawner (fun _ => 0) fullPoolGame).pipeTimer = 0 ∧
      (spawner (fun _ => 0) fullPoolGame).threePipeCooldown = 3 := by
  decide

/-! ## C14: the menu and the game-over screen -/

theorem handleEvent_idle (s : Game) (e : Event) (hidle : s.inMenu = true ∨ s.gameOver = true)
    (hno : startsOrRestarts s e = false) :
    handleEvent s e = { s with running := if e = Event.quit then false else s.running } := by
  obtain ⟨r, g, m, y, v, ps, t, sc, n, c, ry, k⟩ := s
  simp only at hidle
  cases e with
  | keyDown sym =>
    cases m <;> cases g <;> cases sym <;> simp_all [handleEvent, startsOrRestarts]
  | mouseButtonDown mx my =>
    cases m <;> cases g <;> simp_all [handleEvent, startsOrRestarts]
  | _ => cases m <;> cases g <;> simp_all [handleEvent]

theorem events_idle (events : List Event) (s : Game)
    (hidle : s.inMenu = true ∨ s.gameOver = true)
    (hno : ∀ e ∈ events, startsOrRestarts s e = false) :
    events.foldl handleEvent s =
      { s with running := if Event.quit ∈ events then false else s.running } := by
  induction events generalizing s with
  | nil => simp
  | cons e es ih =>
    rw [List.foldl_cons, handleEvent_idle s e hidle (hno e (by simp))]
    rw [ih _ (by exact hidle) (fun e' he' => by
      have := hno e' (by simp [he'])
      simpa [startsOrRestarts] using this)]
    have q : (Event.quit ∈ e :: es) ↔ (e = Event.quit ∨ Event.quit ∈ es) := by
      rw [List.mem_cons, eq_comm]
    simp only [q]
    by_cases h1 : e = Event.quit <;> by_cases h3 : Event.quit ∈ es <;> simp [h1, h3]

theorem frame_idle (rand : Nat → Nat) (s : Game) (events : List Event) (shiftHeld : Bool)
    (hidle : s.inMenu = true ∨ s.gameOver = true)
    (hno : ∀ e ∈ events, startsOrRestarts s e = false) :
    frame rand s events shiftHeld =
      { s with running := if Event.quit ∈ events then false else s.running } := by
  rw [frame, events_idle events s hidle hno, simulate_idle _ _ _ (by exact hidle)]

/-- C14: in `Menu` (`inMenu = 1`) or `GameOver` (`gameOver = 1`), a frame whose
events contain no start or restart action leaves `birdY`, `birdVelocity`, every
pool slot, `pipeTimer`, both counters and `score` unchanged (as well as the mode,
`birdRect.y` and the position in the `rand()` stream), whatever keys are pressed
and whether or not shift is held; only `running` can change, on a quit event.
The same holds over any number of such frames, so the state at the moment of
death stays as it is until a restart. -/
theorem idle_modes_passive (rand : Nat → Nat) (s : Game)
    (hidle : s.inMenu = true ∨ s.gameOver = true) :
    (∀ (events : List Event) (shiftHeld : Bool),
      (∀ e ∈ events, startsOrRestarts s e = false) →
      frame rand s events shiftHeld =
        { s with running := if Event.quit ∈ events then false else s.running }) ∧
    (∀ (inp : Nat → List Event × Bool) (n : Nat),
      (∀ k, k < n → ∀ e ∈ (inp k).1, startsOrRestarts s e = false) →
      (frames rand inp s n).birdY = s.birdY ∧
      (frames rand inp s n).birdVelocity = s.birdVelocity ∧
      (frames rand inp s n).pipes = s.pipes ∧
      (frames rand inp s n).pipeTimer = s.pipeTimer ∧
      (frames rand inp s n).normalPipeCounter = s.normalPipeCounter ∧
      (frames rand inp s n).threePipeCooldown = s.threePipeCooldown ∧
      (frames rand inp s n).score = s.score ∧
      (frames rand inp s n).inMenu = s.inMenu ∧
      (frames rand inp s n).gameOver = s.gameOver) := by
  refine ⟨fun events shiftHeld hno => frame_idle rand s events shiftHeld hidle hno, ?_⟩
  intro inp n hno
  induction n with
  | zero => simp [frames]
  | succ m ih =>
    obtain ⟨h1, h2, h3, h4, h5, h6, h7, h8, h9⟩ := ih (fun k hk => hno k (by omega))
    have hidle' : (frames rand inp s m).inMenu = true ∨ (frames rand inp s m).gameOver = true := by
      rw [h8, h9]; exact hidle
    have hno' : ∀ e ∈ (inp m).1, startsOrRestarts (frames rand inp s m) e = false := by
      intro e he
      have := hno m (by omega) e he
      simpa [startsOrRestarts, h8, h9] using this
    rw [frames, frame_idle rand _ _ _ hidle' hno']
    exact ⟨h1, h2, h3, h4, h5, h6, h7, h8, h9⟩

theorem idle_modes_passive_witness :
    frame (fun _ => 0) crashedGame
        [Event.keyDown Keycode.SDLK_SPACE, Event.keyDown Keycode.SDLK_LSHIFT,
          Event.mouseButtonDown 5 5] true =
      { crashedGame with
        running := if Event.quit ∈ [Event.keyDown Keycode.SDLK_SPACE,
          Event.keyDown Keycode.SDLK_LSHIFT, Event.mouseButtonDown 5 5] then false
          else crashedGame.running } :=
  (idle_modes_passive (fun _ => 0) crashedGame (Or.inr rfl)).1 _ true (by decide)

/-! ## C13: motion and despawn of an obstacle -/

theorem frame_birdRectY_playing (rand : Nat → Nat) (s : Game) (events : List Event)
    (shiftHeld : Bool) (hm : s.inMenu = false) (hg : s.gameOver = false) :
    (frame rand s events shiftHeld).birdRectY =
      (physics (events.foldl handleEvent s) shiftHeld).birdRectY := by
  obtain ⟨e1, e2, -⟩ := events_playing events s hm hg
  rw [frame, simulate_playing _ _ _ e1 e2]
  exact (spawner_frame _ _).2.2.1

/-- One frame in `Playing` on a slot that is active when the frame starts. -/
theorem frame_slot (rand : Nat → Nat) (s : Game) (events : List Event) (shiftHeld : Bool)
    (i : Nat) (p : Pipe) (hm : s.inMenu = false) (hg : s.gameOver = false)
    (hslot : s.pipes[i]? = some p) (hact : p.active = true) :
    ∃ q, (frame rand s events shiftHeld).pipes[i]? = some q ∧
      q.x = p.x - (if shiftHeld then 12 else 3) ∧ q.height = p.height ∧
      (q.active = true ↔ ¬ (q.x + 100 < 0)) ∧
      (p.scored = true → q.scored = true) ∧
      (checkCollision (birdRect (frame rand s events shiftHeld).birdRectY) (scoreZone q.x) = true →
        q.scored = true) := by
  obtain ⟨e1, e2, -, -, e5, -⟩ := events_playing events s hm hg
  have h1 : (spawner rand (physics (events.foldl handleEvent s) shiftHeld)).pipes[i]? = some p :=
    spawner_active rand _ i p (by
      rw [(physics_frame _ shiftHeld).1, e5]; exact hslot) hact
  rw [frame_pipes_playing rand s events shiftHeld hm hg,
    frame_birdRectY_playing rand s events shiftHeld hm hg]
  simp only [List.getElem?_map, h1, Option.map_some']
  refine ⟨_, rfl, ?_, ?_, ?_, ?_, ?_⟩
  · cases shiftHeld <;> simp [movePipe, hact, dashSpeed, pipeSpeed]
  · simp [movePipe, hact]
  · cases shiftHeld <;> simp [movePipe, hact, dashSpeed, pipeSpeed, PIPE_WIDTH]
  · intro hs
    simp [movePipe, hact, hs]
  · intro hz
    cases shiftHeld <;> cases hsc : p.scored <;>
      simp_all [movePipe, dashSpeed, pipeSpeed]

theorem spawnClusterScan_lowest (x h : Int) (ps : List Pipe) (i : Nat) (q : Pipe)
    (hi : ps[i]? = some q) (hq : q.active = false)
    (hlow : ∀ j r, j < i → ps[j]? = some r → r.active = true) :
    (spawnClusterScan x h ps)[i]? = some ⟨x, h, true, false⟩ := by
  induction ps generalizing i with
  | nil => simp at hi
  | cons r rs ih =>
    cases i with
    | zero =>
      simp only [List.getElem?_cons_zero, Option.some.injEq] at hi
      subst hi
      simp [spawnClusterScan, hq]
    | succ j =>
      have hr : r.active = true := hlow 0 r (by omega) (by simp)
      simp only [List.getElem?_cons_succ] at hi
      simp only [spawnClusterScan, hr, Bool.not_true, Bool.false_eq_true, if_false,
        List.getElem?_cons_succ]
      exact ih j hi (fun k t hk ht => hlow (k + 1) t (by omega) (by simpa using ht))

theorem spawnNormalScan_lowest (rand : Nat → Nat) (k : Nat) (ps : List Pipe) (i : Nat) (q : Pipe)
    (hi : ps[i]? = some q) (hq : q.active = false)
    (hlow : ∀ j r, j < i → ps[j]? = some r → r.active = true) :
    (spawnNormalScan rand ps k).1[i]? = some ⟨WINDOW_WIDTH, gapHeight (rand k), true, false⟩ := by
  induction ps generalizing i with
  | nil => simp at hi
  | cons r rs ih =>
    cases i with
    | zero =>
      simp only [List.getElem?_cons_zero, Option.some.injEq] at hi
      subst hi
      simp [spawnNormalScan, hq]
    | succ j =>
      have hr : r.active = true := hlow 0 r (by omega) (by simp)
      simp only [List.getElem?_cons_succ] at hi
      simp only [spawnNormalScan, hr, Bool.not_true, Bool.false_eq_true, if_false,
        List.getElem?_cons_succ]
      exact ih j hi (fun k t hk ht => hlow (k + 1) t (by omega) (by simpa using ht))

theorem spawner_lowest (rand : Nat → Nat) (t : Game) (i : Nat) (q : Pipe)
    (hi : t.pipes[i]? = some q) (hq : q.active = false)
    (hlow : ∀ j r, j < i → t.pipes[j]? = some r → r.active = true)
    (hfire : t.pipeTimer + 1 > 80) :
    ∃ h, (spawner rand t).pipes[i]? = some ⟨1280, h, true, false⟩ := by
  unfold spawner
  simp only [hfire, if_true]
  split_ifs
  · exact ⟨_, spawnNormalScan_lowest rand _ _ i q hi hq hlow⟩
  · refine ⟨gapHeight (rand (t.randPos + 1)), ?_⟩
    simp only [spawnCluster, List.range_succ, List.range_zero, List.nil_append, List.cons_append,
      List.foldl_cons, List.foldl_nil]
    have h0 := spawnClusterScan_lowest (WINDOW_WIDTH + ((0 : Nat) : Int) * (PIPE_WIDTH + 10))
      (gapHeight (rand (t.randPos + 1))) t.pipes i q hi hq hlow
    have h1 := spawnClusterScan_active (WINDOW_WIDTH + ((0 + 1 : Nat) : Int) * (PIPE_WIDTH + 10))
      (gapHeight (rand (t.randPos + 1))) _ i _ h0 rfl
    have h2 := spawnClusterScan_active
      (WINDOW_WIDTH + ((0 + 1 + 1 : Nat) : Int) * (PIPE_WIDTH + 10))
      (gapHeight (rand (t.randPos + 1))) _ i _ h1 rfl
    simpa [WINDOW_WIDTH] using h2
  · exact ⟨_, spawnNormalScan_lowest rand _ _ i q hi hq hlow⟩
  · exact ⟨_, spawnNormalScan_lowest rand _ _ i q hi hq hlow⟩

theorem frames_slot_descent (rand : Nat → Nat) (inp : Nat → List Event × Bool) (s : Game)
    (i : Nat) (p : Pipe) (K : Nat) (hslot : s.pipes[i]? = some p) (hact : p.active = true)
    (hx : p.x = 1280)
    (hplay : ∀ k, k < K → (frames rand inp s k).inMenu = false ∧
      (frames rand inp s k).gameOver = false ∧ (inp k).2 = false) :
    ∀ k, k ≤ K → k ≤ 460 →
      ∃ q, (frames rand inp s k).pipes[i]? = some q ∧ q.x = 1280 - 3 * (k : Int) ∧
        q.height = p.height ∧ q.active = true := by
  intro k
  induction k with
  | zero =>
    intro _ _
    exact ⟨p, hslot, by simp [hx], rfl, hact⟩
  | succ m ih =>
    intro hk hk'
    obtain ⟨q, hq, hqx, hqh, hqa⟩ := ih (by omega) (by omega)
    obtain ⟨hm, hg, hd⟩ := hplay m (by omega)
    obtain ⟨r, hr, hrx, hrh, hra, -⟩ := frame_slot rand _ (inp m).1 (inp m).2 i q hm hg hq hqa
    refine ⟨r, hr, ?_, by rw [hrh, hqh], ?_⟩
    · have : r.x = 1280 - 3 * (m : Int) - 3 := by rw [hrx, hqx, hd]; rfl
      rw [this]
      push_cast
      ring
    · have : r.x = 1280 - 3 * (m : Int) - 3 := by rw [hrx, hqx, hd]; rfl
      rw [hra, this]
      omega

/-- C13: take a slot that is active at `x = 1280` and `K` successive frames each
of which starts in `Playing` and has shift not held (flaps allowed).  After `k`
of them, `k <= 460`, the slot is still active with `x = 1280 - 3k` and its height
unchanged (so `x = 980` after 100).  On frame 461 the moved `x = -103` satisfies
`x + 100 < 0` and the slot is deactivated; after frame 460, at `x = -100`, it is
still active.  Hence whenever the slot has stayed active over `k` frames its `x`
is `1280 - 3k`.  A spawn event that finds the slot inactive with every lower
slot active puts its obstacle, at `x = 1280`, into this slot. -/
theorem obstacle_motion_and_despawn (rand : Nat → Nat) (inp : Nat → List Event × Bool)
    (s : Game) (i : Nat) (p : Pipe) (K : Nat) (hslot : s.pipes[i]? = some p)
    (hact : p.active = true) (hx : p.x = 1280)
    (hplay : ∀ k, k < K → (frames rand inp s k).inMenu = false ∧
      (frames rand inp s k).gameOver = false ∧ (inp k).2 = false) :
    (∀ k, k ≤ K → k ≤ 460 →
      ∃ q, (frames rand inp s k).pipes[i]? = some q ∧ q.x = 1280 - 3 * (k : Int) ∧
        q.height = p.height ∧ q.active = true) ∧
    (461 ≤ K →
      ∃ q, (frames rand inp s 461).pipes[i]? = some q ∧ q.x = -103 ∧
        q.height = p.height ∧ q.active = false) ∧
    (∀ k, k ≤ K →
      (∀ j, j ≤ k → ∃ q, (frames rand inp s j).pipes[i]? = some q ∧ q.active = true) →
      ∃ q, (frames rand inp s k).pipes[i]? = some q ∧ q.x = 1280 - 3 * (k : Int) ∧
        q.height = p.height) ∧
    (∀ (t : Game) (q : Pipe), t.pipes[i]? = some q → q.active = false →
      (∀ j r, j < i → t.pipes[j]? = some r → r.active = true) → t.pipeTimer + 1 > 80 →
      ∃ h, (spawner rand t).pipes[i]? = some ⟨1280, h, true, false⟩) := by
  have hdesc := frames_slot_descent rand inp s i p K hslot hact hx hplay
  have hdead : 461 ≤ K →
      ∃ q, (frames rand inp s 461).pipes[i]? = some q ∧ q.x = -103 ∧
        q.height = p.height ∧ q.active = false := by
    intro hK
    obtain ⟨q, hq, hqx, hqh, hqa⟩ := hdesc 460 (by omega) (le_refl _)
    obtain ⟨hm, hg, hd⟩ := hplay 460 (by omega)
    obtain ⟨r, hr, hrx, hrh, hra, -⟩ := frame_slot rand _ (inp 460).1 (inp 460).2 i q hm hg hq hqa
    have hx' : r.x = -103 := by rw [hrx, hqx, hd]; rfl
    refine ⟨r, hr, hx', by rw [hrh, hqh], ?_⟩
    cases ha : r.active with
    | false => rfl
    | true =>
      rw [hx'] at hra
      exact absurd (hra.1 ha) (by decide)
  refine ⟨hdesc, hdead, ?_, ?_⟩
  · intro k hk hstay
    by_cases h460 : k ≤ 460
    · obtain ⟨q, hq, hqx, hqh, -⟩ := hdesc k hk h460
      exact ⟨q, hq, hqx, hqh⟩
    · exfalso
      obtain ⟨q, hq, -, -, hqa⟩ := hdead (by omega)
      obtain ⟨r, hr, hra⟩ := hstay 461 (by omega)
      rw [hq] at hr
      cases hr
      rw [hqa] at hra
      exact Bool.false_ne_true hra
  · intro t q hq hqa hlow hfire
    exact spawner_lowest rand t i q hq hqa hlow hfire

set_option maxRecDepth 100000 in
theorem obstacle_motion_and_despawn_witness :
    (∃ q, (frames (fun _ => 250) flapEvery63 glideGame 100).pipes[0]? = some q ∧
      q.x = 1280 - 3 * ((100 : Nat) : Int) ∧
      q.height = (⟨1280, 300, true, false⟩ : Pipe).height ∧ q.active = true) ∧
    (∃ q, (frames (fun _ => 250) flapEvery63 glideGame 461).pipes[0]? = some q ∧ q.x = -103 ∧
      q.height = (⟨1280, 300, true, false⟩ : Pipe).height ∧ q.active = false) :=
  have h := obstacle_motion_and_despawn (fun _ => 250) flapEvery63 glideGame 0
    ⟨1280, 300, true, false⟩ 461 rfl rfl rfl (by decide!)
  ⟨h.1 100 (Nat.le_of_ble_eq_true rfl) (Nat.le_of_ble_eq_true rfl), h.2.1 (Nat.le_refl 461)⟩

/-- In the same 461-frame run the slot freed on frame 461 is the lowest inactive
one when the spawner next fires, on frame 486, and holds the new obstacle after
that frame. -/
theorem slot_reuse_example :
    (frames (fun _ => 250) flapEvery63 glideGame 460).pipes[0]? =
        some ⟨-100, 300, true, true⟩ ∧
      (frames (fun _ => 250) flapEvery63 glideGame 461).pipes[0]? =
        some ⟨-103, 300, false, true⟩ ∧
      (frames (fun _ => 250) flapEvery63 glideGame 486).pipes[0]? =
        some ⟨1277, 300, true, false⟩ := by
  decide!

/-! ## C15: the pool is never exhausted -/

theorem allowedXs_le (ub : Int) (L : List (Int × Bool)) (h : GenOK ub L) :
    ∀ x ∈ allowedXs L, x ≤ ub + 220 := by
  induction L generalizing ub with
  | nil => simp [allowedXs]
  | cons g L ih =>
    obtain ⟨h1, h2⟩ := h
    intro x hx
    simp only [allowedXs, List.mem_append] at hx
    rcases hx with hx | hx
    · split_ifs at hx <;> simp at hx <;> omega
    · have := ih _ h2 x hx
      omega

theorem GenOK_mono {a b : Int} (hab : a ≤ b) (L : List (Int × Bool)) (h : GenOK a L) :
    GenOK b L := by
  cases L with
  | nil => trivial
  | cons g L => exact ⟨le_trans h.1 hab, h.2⟩

theorem Spaced_mono {j k : Nat} (hjk : j ≤ k) (L : List (Int × Bool)) (h : Spaced k L) :
    Spaced j L := by
  induction L generalizing j k with
  | nil => trivial
  | cons g L ih =>
    simp only [Spaced] at h ⊢
    split_ifs at h ⊢ with hg
    · exact ⟨by omega, h.2⟩
    · exact ih (by omega) h

theorem GenOK_shift (v ub : Int) (L : List (Int × Bool)) (h : GenOK ub L) :
    GenOK (ub - v) (shiftGens v L) := by
  induction L generalizing ub with
  | nil => trivial
  | cons g L ih =>
    obtain ⟨h1, h2⟩ := h
    refine ⟨by simp; omega, ?_⟩
    have := ih _ h2
    simpa [shiftGens, sub_right_comm] using this

theorem Spaced_shift (v : Int) (k : Nat) (L : List (Int × Bool)) :
    Spaced k (shiftGens v L) ↔ Spaced k L := by
  induction L generalizing k with
  | nil => simp [shiftGens, Spaced]
  | cons g L ih =>
    simp only [shiftGens, List.map_cons, Spaced] at ih ⊢
    split_ifs
    · rw [ih]
    · rw [ih]

theorem allowedXs_shift (v : Int) (L : List (Int × Bool)) :
    allowedXs (shiftGens v L) = (allowedXs L).map (fun x => x - v) := by
  induction L with
  | nil => rfl
  | cons g L ih =>
    simp only [shiftGens, List.map_cons, allowedXs, List.map_append] at ih ⊢
    rw [ih]
    split_ifs <;> simp
    omega

theorem length_filter_split (p : Int → Bool) (xs : List Int) :
    (xs.filter p).length + (xs.filter (fun a => !p a)).length = xs.length := by
  induction xs with
  | nil => rfl
  | cons a l ih =>
    cases h : p a <;> simp [List.filter_cons, h] <;> omega

/-- Counting: distinct positions, at least `-100`, drawn from spaced spawn events
of which fewer than `n` can still be on screen. -/
theorem count_bound (L : List (Int × Bool)) :
    ∀ (ub : Int) (k n : Nat) (xs : List Int), GenOK ub L → Spaced k L → k ≤ 3 → xs.Nodup →
      (∀ x ∈ xs, x ∈ allowedXs L ∧ -100 ≤ x) → ub + 320 < 243 * (n : Int) →
      2 * xs.length + k ≤ 3 * n + 3 := by
  induction L with
  | nil =>
    intro ub k n xs _ _ hk _ hmem _
    have : xs = [] := by
      cases xs with
      | nil => rfl
      | cons a l => exact absurd (hmem a (by simp)).1 (by simp [allowedXs])
    subst this
    simp
    omega
  | cons g L ih =>
    intro ub k n xs hgen hsp hk hnd hmem hn
    obtain ⟨hg1, hg2⟩ := hgen
    by_cases hlow : g.1 < -320
    · have : xs = [] := by
        cases xs with
        | nil => rfl
        | cons a l =>
          have h1 := hmem a (by simp)
          have h2 := allowedXs_le g.1 (g :: L) ⟨le_refl _, hg2⟩ a h1.1
          omega
      subst this
      simp
      omega
    · have hn1 : 1 ≤ n := by omega
      let gen0 : List Int := if g.2 then [g.1, g.1 + 110, g.1 + 220] else [g.1]
      have hsplit := length_filter_split (fun a => decide (a ∈ gen0)) xs
      have h1 : (xs.filter (fun a => decide (a ∈ gen0))).length ≤ gen0.length :=
        (List.subperm_of_subset (hnd.filter _) (fun a ha => by
          simpa using (List.mem_filter.1 ha).2)).length_le
      have h2nd : (xs.filter (fun a => !decide (a ∈ gen0))).Nodup := hnd.filter _
      have h2mem : ∀ x ∈ xs.filter (fun a => !decide (a ∈ gen0)),
          x ∈ allowedXs L ∧ -100 ≤ x := by
        intro x hx
        obtain ⟨hx1, hx2⟩ := List.mem_filter.1 hx
        have hx3 : x ∉ gen0 := by simpa using hx2
        obtain ⟨ha, hb⟩ := hmem x hx1
        simp only [allowedXs, List.mem_append] at ha
        rcases ha with ha | ha
        · exact absurd ha hx3
        · exact ⟨ha, hb⟩
      simp only [Spaced] at hsp
      by_cases hc : g.2 = true
      · rw [if_pos hc] at hsp
        obtain ⟨hk0, hsp3⟩ := hsp
        have hlen : gen0.length = 3 := by simp [gen0, hc]
        have := ih (g.1 - 243) 3 (n - 1) _ hg2 hsp3 (le_refl _) h2nd h2mem (by
          have : ((n - 1 : Nat) : Int) = (n : Int) - 1 := by omega
          rw [this]; omega)
        omega
      · rw [if_neg hc] at hsp
        have hlen : gen0.length = 1 := by simp [gen0, hc]
        have := ih (g.1 - 243) (k - 1) (n - 1) _ hg2 hsp (by omega) h2nd h2mem (by
          have : ((n - 1 : Nat) : Int) = (n : Int) - 1 := by omega
          rw [this]; omega)
        omega

theorem activeCount_eq (pipes : List Pipe) : activeCount pipes = (activeXs pipes).length := by
  simp [activeCount, activeXs]

theorem PoolOK_count (ub : Int) (k : Nat) (pipes : List Pipe) (n : Nat) (h : PoolOK ub k pipes)
    (hn : ub + 320 < 243 * (n : Int)) : 2 * activeCount pipes ≤ 3 * n + 3 := by
  obtain ⟨L, hgen, hsp, hnd, hmem⟩ := h
  have := count_bound L ub (3 - k) n (activeXs pipes) hgen hsp (by omega) hnd hmem hn
  rw [activeCount_eq]
  omega

theorem PoolInv_count (s : Game) (h : PoolInv s) :
    activeCount s.pipes ≤ 12 ∧ (s.pipeTimer = 80 → activeCount s.pipes ≤ 10) := by
  obtain ⟨-, h0, h80, hok⟩ := h
  constructor
  · have := PoolOK_count _ _ _ 7 hok (by push_cast; omega)
    omega
  · intro ht
    rw [ht] at hok
    have := PoolOK_count _ _ _ 6 hok (by norm_num)
    omega

theorem spawnNormalScan_eq (rand : Nat → Nat) (ps : List Pipe) (k : Nat) :
    (spawnNormalScan rand ps k).1 = spawnClusterScan WINDOW_WIDTH (gapHeight (rand k)) ps := by
  induction ps with
  | nil => rfl
  | cons q qs ih => by_cases hq : q.active = true <;> simp [spawnNormalScan, spawnClusterScan, hq, ih]

/-- A scan that finds an inactive slot adds its position to the active ones. -/
theorem activeXs_scan_free (x h : Int) (ps : List Pipe) (hfree : ∃ p ∈ ps, p.active = false) :
    List.Perm (activeXs (spawnClusterScan x h ps)) (x :: activeXs ps) := by
  induction ps with
  | nil => simp at hfree
  | cons q qs ih =>
    by_cases hq : q.active = true
    · have hfree' : ∃ p ∈ qs, p.active = false := by
        obtain ⟨p, hp, hpa⟩ := hfree
        rcases List.mem_cons.1 hp with rfl | hp
        · rw [hq] at hpa; exact absurd hpa (by decide)
        · exact ⟨p, hp, hpa⟩
      have := ih hfree'
      simp only [spawnClusterScan, hq, Bool.not_true, Bool.false_eq_true, if_false, activeXs,
        List.filter_cons, if_true, List.map_cons] at this ⊢
      exact (List.Perm.cons _ this).trans (List.Perm.swap _ _ _)
    · simp [spawnClusterScan, activeXs, List.filter_cons, hq]

theorem activeXs_scan (x h : Int) (ps : List Pipe) :
    activeXs (spawnClusterScan x h ps) = activeXs ps ∨
      List.Perm (activeXs (spawnClusterScan x h ps)) (x :: activeXs ps) := by
  by_cases hfree : ∃ p ∈ ps, p.active = false
  · exact Or.inr (activeXs_scan_free x h ps hfree)
  · left
    rw [spawnClusterScan_full x h ps (fun p hp => by
      cases hpa : p.active with
      | true => rfl
      | false => exact absurd ⟨p, hp, hpa⟩ hfree)]

theorem activeXs_scan_nodup (x h : Int) (ps : List Pipe) (hnd : (activeXs ps).Nodup)
    (hx : x ∉ activeXs ps) :
    (activeXs (spawnClusterScan x h ps)).Nodup ∧
      ∀ y ∈ activeXs (spawnClusterScan x h ps), y = x ∨ y ∈ activeXs ps := by
  rcases activeXs_scan x h ps with he | hp
  · rw [he]; exact ⟨hnd, fun y hy => Or.inr hy⟩
  · refine ⟨hp.nodup_iff.2 (List.nodup_cons.2 ⟨hx, hnd⟩), fun y hy => ?_⟩
    simpa using hp.mem_iff.1 hy

theorem activeXs_movePipe (bird : SDL_Rect) (v : Int) (ps : List Pipe) :
    activeXs (ps.map (movePipe bird v)) =
      ((activeXs ps).map (fun x => x - v)).filter (fun x => !decide (x + 100 < 0)) := by
  induction ps with
  | nil => rfl
  | cons q qs ih =>
    simp only [activeXs, List.map_cons, List.filter_cons] at ih ⊢
    by_cases hq : q.active = true
    · by_cases hx : q.x - v + 100 < 0
      · simp [movePipe, hq, hx, PIPE_WIDTH, ih]
      · simp [movePipe, hq, hx, PIPE_WIDTH, ih]
    · simp [movePipe, hq, ih]

/-- The movement loop keeps the pool description, one tick further left. -/
theorem PoolOK_move (bird : SDL_Rect) (v ub : Int) (k : Nat) (ps : List Pipe) (hv : 3 ≤ v)
    (h : PoolOK ub k ps) : PoolOK (ub - 3) k (ps.map (movePipe bird v)) := by
  obtain ⟨L, hgen, hsp, hnd, hmem⟩ := h
  refine ⟨shiftGens v L, GenOK_mono (by omega) _ (GenOK_shift v ub L hgen),
    (Spaced_shift v _ L).2 hsp, ?_, ?_⟩
  · rw [activeXs_movePipe]
    exact (hnd.map (fun a b hab => by simpa using hab)).filter _
  · intro x hx
    rw [activeXs_movePipe] at hx
    obtain ⟨hx1, hx2⟩ := List.mem_filter.1 hx
    obtain ⟨y, hy, rfl⟩ := List.mem_map.1 hx1
    refine ⟨?_, by
      have : ¬ (y - v + 100 < 0) := by simpa using hx2
      omega⟩
    rw [allowedXs_shift]
    exact List.mem_map.2 ⟨y, (hmem y hy).1, rfl⟩

theorem PoolOK_not_mem (ub : Int) (k : Nat) (ps : List Pipe) (h : PoolOK ub k ps) (x : Int)
    (hx : ub + 220 < x) : x ∉ activeXs ps := by
  obtain ⟨L, hgen, -, -, hmem⟩ := h
  intro hin
  have := allowedXs_le ub L hgen x (hmem x hin).1
  omega

/-- A single spawn on a pool whose newest spawn event is 81 ticks old. -/
theorem PoolOK_spawn_single (h : Int) (ps : List Pipe) (k k' : Nat) (hk : k ≤ k' + 1)
    (hok : PoolOK 1037 k ps) : PoolOK 1280 k' (spawnClusterScan 1280 h ps) := by
  have hnot := PoolOK_not_mem 1037 k ps hok 1280 (by norm_num)
  obtain ⟨L, hgen, hsp, hnd, hmem⟩ := hok
  obtain ⟨hnd', hmem'⟩ := activeXs_scan_nodup 1280 h ps hnd hnot
  refine ⟨(1280, false) :: L, ⟨le_refl _, by simpa using hgen⟩, ?_, hnd', ?_⟩
  · simp only [Spaced, Bool.false_eq_true, if_false]
    exact Spaced_mono (by omega) L hsp
  · intro y hy
    rcases hmem' y hy with rfl | hy'
    · simp [allowedXs]
    · exact ⟨by simp [allowedXs, (hmem y hy').1], (hmem y hy').2⟩

/-- A cluster spawn on a pool whose newest spawn event is 81 ticks old and
whose last cluster is at least three spawn events back. -/
theorem PoolOK_spawn_cluster (h : Int) (ps : List Pipe) (hok : PoolOK 1037 0 ps) :
    PoolOK 1280 3 (spawnCluster h ps) := by
  have hn0 := PoolOK_not_mem 1037 0 ps hok 1280 (by norm_num)
  have hn1 := PoolOK_not_mem 1037 0 ps hok 1390 (by norm_num)
  have hn2 := PoolOK_not_mem 1037 0 ps hok 1500 (by norm_num)
  obtain ⟨L, hgen, hsp, hnd, hmem⟩ := hok
  simp only [spawnCluster, List.range_succ, List.range_zero, List.nil_append, List.cons_append,
    List.foldl_cons, List.foldl_nil, WINDOW_WIDTH, PIPE_WIDTH]
  norm_num
  obtain ⟨d0, m0⟩ := activeXs_scan_nodup 1280 h ps hnd hn0
  have hx1 : (1390 : Int) ∉ activeXs (spawnClusterScan 1280 h ps) := by
    intro hin
    rcases m0 _ hin with h' | h'
    · omega
    · exact hn1 h'
  obtain ⟨d1, m1⟩ := activeXs_scan_nodup 1390 h _ d0 hx1
  have hx2 : (1500 : Int) ∉ activeXs (spawnClusterScan 1390 h (spawnClusterScan 1280 h ps)) := by
    intro hin
    rcases m1 _ hin with h' | h'
    · omega
    · rcases m0 _ h' with h'' | h''
      · omega
      · exact hn2 h''
  obtain ⟨d2, m2⟩ := activeXs_scan_nodup 1500 h _ d1 hx2
  refine ⟨(1280, true) :: L, ⟨le_refl _, by simpa using hgen⟩, ?_, d2, ?_⟩
  · simp only [Spaced, if_true]
    exact ⟨trivial, by simpa using hsp⟩
  · intro y hy
    rcases m2 y hy with rfl | hy
    · simp [allowedXs]
    · rcases m1 y hy with rfl | hy
      · simp [allowedXs]
      · rcases m0 y hy with rfl | hy
        · simp [allowedXs]
        · exact ⟨by simp [allowedXs, (hmem y hy).1], (hmem y hy).2⟩

/-- The spawner step on the loop invariant: the pool description holds before
the movement loop with the newest spawn event at `1280 - 3 * pipeTimer`. -/
theorem PoolOK_spawner (rand : Nat → Nat) (s : Game) (h0 : 0 ≤ s.pipeTimer)
    (h80 : s.pipeTimer ≤ 80)
    (hok : PoolOK (1280 - 3 * (s.pipeTimer + 1)) (forcedSingles s) s.pipes) :
    0 ≤ (spawner rand s).pipeTimer ∧ (spawner rand s).pipeTimer ≤ 80 ∧
      PoolOK (1280 - 3 * (spawner rand s).pipeTimer) (forcedSingles (spawner rand s))
        (spawner rand s).pipes := by
  by_cases hfire : s.pipeTimer + 1 > 80
  · have ht : s.pipeTimer = 80 := by omega
    rw [ht] at hok
    norm_num at hok
    unfold spawner
    simp only [hfire, if_true]
    split_ifs with hcool hclus hk
    · refine ⟨le_refl _, by norm_num, ?_⟩
      simp only [spawnNormalScan_eq, WINDOW_WIDTH]
      norm_num
      exact PoolOK_spawn_single _ _ _ _ (by unfold forcedSingles; simp only []; omega) hok
    · refine ⟨le_refl _, by norm_num, ?_⟩
      have hF : forcedSingles s = 0 := by unfold forcedSingles; omega
      rw [hF] at hok
      simp only []
      norm_num
      have := PoolOK_spawn_cluster (gapHeight (rand (s.randPos + 1))) s.pipes hok
      simpa [forcedSingles] using this
    · refine ⟨le_refl _, by norm_num, ?_⟩
      simp only [spawnNormalScan_eq, WINDOW_WIDTH]
      norm_num
      exact PoolOK_spawn_single _ _ _ _ (by unfold forcedSingles; simp only []; omega) hok
    · refine ⟨le_refl _, by norm_num, ?_⟩
      simp only [spawnNormalScan_eq, WINDOW_WIDTH]
      norm_num
      exact PoolOK_spawn_single _ _ _ _ (by unfold forcedSingles; simp only []; omega) hok
  · unfold spawner
    simp only [hfire, if_false]
    exact ⟨by omega, by omega, hok⟩

theorem PoolInv_simulate (rand : Nat → Nat) (s : Game) (shiftHeld : Bool) (h : PoolInv s) :
    PoolInv (simulate rand s shiftHeld) := by
  by_cases hplay : s.inMenu = false ∧ s.gameOver = false
  · obtain ⟨hlen, h0, h80, hok⟩ := h
    obtain ⟨g1, g2, -, g4, g5, -⟩ := physics_frame s shiftHeld
    have hF : forcedSingles (physics s shiftHeld) = forcedSingles s := by
      simp only [forcedSingles, g4, g5]
    obtain ⟨t0, t80, tok⟩ := PoolOK_spawner rand (physics s shiftHeld) (by rw [g2]; exact h0)
      (by rw [g2]; exact h80) (by rw [g1, g2, hF]; exact hok)
    refine ⟨by rw [length_simulate]; exact hlen, ?_⟩
    rw [simulate_playing rand s shiftHeld hplay.1 hplay.2]
    refine ⟨t0, t80, ?_⟩
    have := PoolOK_move (birdRect (physics s shiftHeld).birdRectY)
      (if shiftHeld then dashSpeed else pipeSpeed) _ _ _
      (by cases shiftHeld <;> simp [dashSpeed, pipeSpeed]) tok
    have e : 1280 - 3 * (spawner rand (physics s shiftHeld)).pipeTimer - 3 =
        1280 - 3 * ((spawner rand (physics s shiftHeld)).pipeTimer + 1) := by ring
    rw [e] at this
    exact this
  · rw [simulate_idle rand s shiftHeld (by
      rcases Bool.eq_false_or_eq_true s.inMenu with h | h
      · exact Or.inl h
      · rcases Bool.eq_false_or_eq_true s.gameOver with h' | h'
        · exact Or.inr h'
        · exact absurd ⟨h, h'⟩ hplay)]
    exact h

theorem activeXs_deactivated (ps : List Pipe) :
    activeXs (ps.map (fun p => { p with active := false })) = [] := by
  induction ps with
  | nil => rfl
  | cons q qs ih =>
    simp only [activeXs, List.map_cons, List.filter_cons] at ih ⊢
    simp

theorem handleEvent_pool (s : Game) (e : Event) :
    ((handleEvent s e).pipes = s.pipes ∧ (handleEvent s e).pipeTimer = s.pipeTimer ∧
      (handleEvent s e).normalPipeCounter = s.normalPipeCounter ∧
      (handleEvent s e).threePipeCooldown = s.threePipeCooldown) ∨
    ((handleEvent s e).pipes = s.pipes.map (fun p => { p with active := false }) ∧
      (handleEvent s e).pipeTimer = 0 ∧ (handleEvent s e).normalPipeCounter = 0 ∧
      (handleEvent s e).threePipeCooldown = 0) := by
  unfold handleEvent
  cases e <;> simp only [] <;> split_ifs <;> simp [resetGame]

theorem PoolInv_handleEvent (s : Game) (e : Event) (h : PoolInv s) :
    PoolInv (handleEvent s e) := by
  obtain ⟨hlen, h0, h80, hok⟩ := h
  refine ⟨by rw [length_handleEvent]; exact hlen, ?_⟩
  rcases handleEvent_pool s e with ⟨e1, e2, e3, e4⟩ | ⟨e1, e2, e3, e4⟩
  · have hF : forcedSingles (handleEvent s e) = forcedSingles s := by
      simp only [forcedSingles, e3, e4]
    rw [e1, e2, hF]
    exact ⟨h0, h80, hok⟩
  · rw [e1, e2]
    refine ⟨le_refl _, by norm_num, [], trivial, trivial, ?_, ?_⟩
    · rw [activeXs_deactivated]; exact List.nodup_nil
    · rw [activeXs_deactivated]; intro x hx; simp at hx

theorem PoolInv_events (events : List Event) (s : Game) (h : PoolInv s) :
    PoolInv (events.foldl handleEvent s) := by
  induction events generalizing s with
  | nil => exact h
  | cons e es ih => exact ih _ (PoolInv_handleEvent s e h)

theorem PoolInv_frame (rand : Nat → Nat) (s : Game) (events : List Event) (shiftHeld : Bool)
    (h : PoolInv s) : PoolInv (frame rand s events shiftHeld) :=
  PoolInv_simulate rand _ shiftHeld (PoolInv_events events s h)

theorem PoolInv_run (rand : Nat → Nat) (inputs : List (List Event × Bool)) (s : Game)
    (h : PoolInv s) : PoolInv (run rand s inputs) := by
  induction inputs generalizing s with
  | nil => exact h
  | cons inp rest ih =>
    by_cases hr : s.running = true
    · simp only [run, hr, if_true]
      exact ih _ (PoolInv_frame rand s inp.1 inp.2 h)
    · simpa [run, hr] using h

theorem PoolInv_fresh (s : Game) (h : FreshlyReset s) : PoolInv s := by
  obtain ⟨-, hlen, hin, -, -, ht, -, -⟩ := h
  have hx : activeXs s.pipes = [] := by
    simp only [activeXs, List.map_eq_nil_iff, List.filter_eq_nil_iff]
    intro p hp
    simp [hin p hp]
  refine ⟨hlen, by rw [ht], by rw [ht]; norm_num, [], trivial, trivial, ?_, ?_⟩
  · rw [hx]; exact List.nodup_nil
  · rw [hx]; intro x hx'; simp at hx'

theorem inactive_add_active (ps : List Pipe) :
    (ps.filter (fun p => !p.active)).length + activeCount ps = ps.length := by
  induction ps with
  | nil => rfl
  | cons q qs ih =>
    simp only [activeCount] at ih ⊢
    cases h : q.active <;> simp [List.filter_cons, h] <;> omega

theorem exists_inactive (ps : List Pipe) (h : activeCount ps < ps.length) :
    ∃ p ∈ ps, p.active = false := by
  have h1 := inactive_add_active ps
  have h2 : 0 < (ps.filter (fun p => !p.active)).length := by omega
  obtain ⟨p, hp⟩ := List.exists_mem_of_length_pos h2
  obtain ⟨hp1, hp2⟩ := List.mem_filter.1 hp
  exact ⟨p, hp1, by simpa using hp2⟩

theorem activeCount_scan (x h : Int) (ps : List Pipe) (hfree : activeCount ps < ps.length) :
    activeCount (spawnClusterScan x h ps) = activeCount ps + 1 := by
  rw [activeCount_eq, activeCount_eq,
    (activeXs_scan_free x h ps (exists_inactive ps hfree)).length_eq]
  rfl

theorem activeCount_spawnCluster (h : Int) (ps : List Pipe) (hfree : activeCount ps + 3 ≤ ps.length) :
    activeCount (spawnCluster h ps) = activeCount ps + 3 := by
  simp only [spawnCluster, List.range_succ, List.range_zero, List.nil_append, List.cons_append,
    List.foldl_cons, List.foldl_nil]
  have a0 := activeCount_scan (WINDOW_WIDTH + ((0 : Nat) : Int) * (PIPE_WIDTH + 10)) h ps
    (by omega)
  have l0 := length_spawnClusterScan (WINDOW_WIDTH + ((0 : Nat) : Int) * (PIPE_WIDTH + 10)) h ps
  have a1 := activeCount_scan (WINDOW_WIDTH + ((0 + 1 : Nat) : Int) * (PIPE_WIDTH + 10)) h _
    (by rw [a0, l0]; omega)
  have l1 := length_spawnClusterScan (WINDOW_WIDTH + ((0 + 1 : Nat) : Int) * (PIPE_WIDTH + 10)) h
    (spawnClusterScan (WINDOW_WIDTH + ((0 : Nat) : Int) * (PIPE_WIDTH + 10)) h ps)
  have a2 := activeCount_scan (WINDOW_WIDTH + ((0 + 1 + 1 : Nat) : Int) * (PIPE_WIDTH + 10)) h _
    (by rw [a1, a0, l1, l0]; omega)
  rw [a2, a1, a0]

/-- C15: in every state that the game loop reaches from a reset state (any
frames: any events, flaps, dash and restarts included, and any values of
`rand()`) fewer than 20 slots are active (at most 12).  At each spawn event of a
further frame at least three slots of the pool are inactive (at most 10 are
active), so the spawn is not dropped: a single spawn raises the number of active
slots by exactly one, a cluster by exactly three, and the pool stays below 20
active slots at the movement loop and after the frame. -/
theorem pool_never_exhausted (rand : Nat → Nat) (s0 : Game) (hreset : FreshlyReset s0)
    (inputs : List (List Event × Bool)) :
    activeCount (run rand s0 inputs).pipes < 20 ∧
    ∀ (events : List Event) (shiftHeld : Bool),
      (events.foldl handleEvent (run rand s0 inputs)).inMenu = false →
      (events.foldl handleEvent (run rand s0 inputs)).gameOver = false →
      spawnBranch rand (physics (events.foldl handleEvent (run rand s0 inputs)) shiftHeld) ≠ none →
      3 ≤ ((events.foldl handleEvent (run rand s0 inputs)).pipes.filter
        (fun p => !p.active)).length ∧
      activeCount
          (spawner rand (physics (events.foldl handleEvent (run rand s0 inputs)) shiftHeld)).pipes =
        activeCount (events.foldl handleEvent (run rand s0 inputs)).pipes +
          (if spawnBranch rand
              (physics (events.foldl handleEvent (run rand s0 inputs)) shiftHeld) =
            some SpawnBranch.cluster then 3 else 1) ∧
      activeCount
          (spawner rand (physics (events.foldl handleEvent (run rand s0 inputs)) shiftHeld)).pipes
        < 20 ∧
      activeCount (frame rand (run rand s0 inputs) events shiftHeld).pipes < 20 := by
  have hinv := PoolInv_run rand inputs s0 (PoolInv_fresh s0 hreset)
  refine ⟨by have := (PoolInv_count _ hinv).1; omega, ?_⟩
  intro events shiftHeld hm hg hspawn
  have hinv1 := PoolInv_events events _ hinv
  have hfr := (PoolInv_count _ (PoolInv_frame rand _ events shiftHeld hinv)).1
  generalize events.foldl handleEvent (run rand s0 inputs) = s1 at hm hg hspawn hinv1 ⊢
  obtain ⟨g1, g2, -, g4, g5, g6, -⟩ := physics_frame s1 shiftHeld
  have hfire : s1.pipeTimer = 80 := by
    have h80 := hinv1.2.2.1
    by_contra hne
    apply hspawn
    simp only [spawnBranch, g2]
    rw [if_neg (by omega)]
  have hcount := (PoolInv_count _ hinv1).2 hfire
  have hlen : s1.pipes.length = 20 := hinv1.1
  have hsplit := inactive_add_active s1.pipes
  have hphys : (physics s1 shiftHeld).pipes = s1.pipes := g1
  have key : activeCount (spawner rand (physics s1 shiftHeld)).pipes =
      activeCount s1.pipes +
        (if spawnBranch rand (physics s1 shiftHeld) = some SpawnBranch.cluster then 3 else 1) := by
    obtain ⟨-, hclus, hsing⟩ := spawnBranch_pipes rand (physics s1 shiftHeld)
    cases hb : spawnBranch rand (physics s1 shiftHeld) with
    | none => exact absurd hb hspawn
    | some b =>
      cases b with
      | cluster =>
        rw [hclus hb, hphys, activeCount_spawnCluster _ _ (by omega)]
        simp
      | single =>
        obtain ⟨k, hk⟩ := hsing hb
        rw [hk, hphys, spawnNormalScan_eq, activeCount_scan _ _ _ (by omega)]
        simp
  refine ⟨by omega, key, ?_, by omega⟩
  rw [key]
  split_ifs <;> omega

set_option maxRecDepth 100000 in
theorem pool_never_exhausted_witness :
    activeCount (run (fun _ => 150) startedGame ((List.range 161).map flapEvery63)).pipes < 20 ∧
    3 ≤ (([].foldl handleEvent
        (run (fun _ => 150) startedGame ((List.range 161).map flapEvery63))).pipes.filter
      (fun p => !p.active)).length :=
  have h := pool_never_exhausted (fun _ => 150) startedGame
    (resetGame_fresh { initGame with inMenu := false } rfl) ((List.range 161).map flapEvery63)
  have hs : ([].foldl handleEvent
        (run (fun _ => 150) startedGame ((List.range 161).map flapEvery63))).inMenu = false ∧
      ([].foldl handleEvent
        (run (fun _ => 150) startedGame ((List.range 161).map flapEvery63))).gameOver = false ∧
      spawnBranch (fun _ => 150)
        (physics ([].foldl handleEvent
          (run (fun _ => 150) startedGame ((List.range 161).map flapEvery63))) false) ≠ none := by
    decide!
  ⟨h.1, (h.2 [] false hs.1 hs.2.1 hs.2.2).1⟩

/-! ## C16: the score zone cannot be jumped over -/

theorem scoreZone_overlap_iff (x y : Int) :
    checkCollision (birdRect y) (scoreZone x) = true ↔
      (199 ≤ x ∧ x ≤ 306) ∧ (-60 ≤ y ∧ y ≤ 720) := by
  rw [checkCollision_iff]
  simp only [birdRect, scoreZone, PIPE_WIDTH, WINDOW_HEIGHT]
  omega

/-- A sequence that starts at 211 or more, ends below 199 and never drops by
more than 12 in one step has a value in `[199, 306]` after some step. -/
theorem window_crossing (x : Nat → Int) (n : Nat)
    (hstep : ∀ k, k < n → x k - 12 ≤ x (k + 1) ∧ x (k + 1) ≤ x k)
    (h0 : 211 ≤ x 0) (hn : x n < 199) :
    ∃ k, k < n ∧ 199 ≤ x (k + 1) ∧ x (k + 1) ≤ 306 := by
  induction n with
  | zero => omega
  | succ m ih =>
    by_cases hm : x m < 199
    · obtain ⟨k, hk, h⟩ := ih (fun k hk => hstep k (by omega)) hm
      exact ⟨k, by omega, h⟩
    · have hs := hstep m (by omega)
      by_cases hw : x m ≤ 306
      · cases m with
        | zero => omega
        | succ j => exact ⟨j, by omega, by omega, hw⟩
      · omega

/-- One frame in `Playing`: a slot that is active and unscored when the frame
starts and scored after it has been counted on it. -/
theorem frame_slot_counted (rand : Nat → Nat) (s : Game) (events : List Event)
    (shiftHeld : Bool) (i : Nat) (p q : Pipe) (hm : s.inMenu = false) (hg : s.gameOver = false)
    (hslot : s.pipes[i]? = some p) (hact : p.active = true) (hp : p.scored = false)
    (hq : (frame rand s events shiftHeld).pipes[i]? = some q) (hqs : q.scored = true) :
    slotCounted rand (events.foldl handleEvent s) shiftHeld i = true := by
  obtain ⟨e1, e2, -, -, e5, -⟩ := events_playing events s hm hg
  have h1 : (spawner rand (physics (events.foldl handleEvent s) shiftHeld)).pipes[i]? = some p :=
    spawner_active rand _ i p (by
      rw [(physics_frame _ shiftHeld).1, e5]; exact hslot) hact
  rw [frame_pipes_playing rand s events shiftHeld hm hg] at hq
  simp only [List.getElem?_map, h1, Option.map_some', Option.some.injEq] at hq
  subst hq
  simp only [slotCounted, e1, e2, h1, pipeScores, hact, hp]
  simpa [movePipe, hact, hp] using hqs

theorem frames_scored_persists (rand : Nat → Nat) (inp : Nat → List Event × Bool) (s : Game)
    (i n : Nat)
    (hplay : ∀ k, k < n → (frames rand inp s k).inMenu = false ∧
      (frames rand inp s k).gameOver = false)
    (hstay : ∀ k, k < n → ∃ q, (frames rand inp s k).pipes[i]? = some q ∧ q.active = true)
    (m : Nat) (hs : ∃ q, (frames rand inp s m).pipes[i]? = some q ∧ q.scored = true) :
    ∀ d, m + d ≤ n → ∃ q, (frames rand inp s (m + d)).pipes[i]? = some q ∧ q.scored = true := by
  intro d
  induction d with
  | zero => intro _; exact hs
  | succ e ih =>
    intro he
    obtain ⟨q, hq, hqs⟩ := ih (by omega)
    obtain ⟨q', hq', hqa⟩ := hstay (m + e) (by omega)
    rw [hq] at hq'
    cases hq'
    obtain ⟨h1, h2⟩ := hplay (m + e) (by omega)
    obtain ⟨r, hr, -, -, -, hrs, -⟩ :=
      frame_slot rand _ (inp (m + e)).1 (inp (m + e)).2 i q h1 h2 hq hqa
    exact ⟨r, hr, hrs hqs⟩

theorem frames_scored_counted (rand : Nat → Nat) (inp : Nat → List Event × Bool) (s : Game)
    (i n : Nat) (p : Pipe) (hslot : s.pipes[i]? = some p) (hp : p.scored = false)
    (hplay : ∀ k, k < n → (frames rand inp s k).inMenu = false ∧
      (frames rand inp s k).gameOver = false)
    (hstay : ∀ k, k < n → ∃ q, (frames rand inp s k).pipes[i]? = some q ∧ q.active = true) :
    ∀ m, m ≤ n → (∃ q, (frames rand inp s m).pipes[i]? = some q ∧ q.scored = true) →
      ∃ j, j < m ∧
        slotCounted rand ((inp j).1.foldl handleEvent (frames rand inp s j)) (inp j).2 i = true := by
  intro m
  induction m with
  | zero =>
    intro _ ⟨q, hq, hqs⟩
    simp only [frames] at hq
    rw [hslot] at hq
    cases hq
    rw [hp] at hqs
    exact absurd hqs Bool.false_ne_true
  | succ e ih =>
    intro he ⟨q, hq, hqs⟩
    obtain ⟨r, hr, hra⟩ := hstay e (by omega)
    obtain ⟨h1, h2⟩ := hplay e (by omega)
    cases hrs : r.scored with
    | true =>
      obtain ⟨j, hj, hc⟩ := ih (by omega) ⟨r, hr, hrs⟩
      exact ⟨j, by omega, hc⟩
    | false =>
      exact ⟨e, by omega,
        frame_slot_counted rand _ (inp e).1 (inp e).2 i r q h1 h2 hr hra hrs hq hqs⟩

/-- C16: take a slot holding an active obstacle at `x >= 211` (an obstacle
spawned at 1280, 1390 or 1500 ends its spawn frame at `x0 - 3` or `x0 - 12`) and
a run of `n` frames, with any events and with shift held or not on each, every
one of which starts in `Playing`, such that the slot is active before each of
them and inactive after the last.  Then after some frame `k` of the run the
moved `x` of the slot lies in `[199, 306]`, the slot still being active; this is
exactly the x-part of the test of its score zone `(x + 50, 0, 1, 720)` against the
player rectangle `(250, y, 106, 60)`, whose y-part is `-60 <= y <= 720`.  When
the player rectangle of that frame satisfies the y-part, the slot is scored after
that frame and still scored when it is deactivated, and if it was unscored at
the start it has been counted (`score++`) on one of the frames up to `k`. -/
theorem dash_cannot_skip_zone (rand : Nat → Nat) (inp : Nat → List Event × Bool) (s : Game)
    (i n : Nat) (p : Pipe) (hslot : s.pipes[i]? = some p) (hact : p.active = true)
    (hx : 211 ≤ p.x)
    (hplay : ∀ k, k < n → (frames rand inp s k).inMenu = false ∧
      (frames rand inp s k).gameOver = false)
    (hstay : ∀ k, k < n → ∃ q, (frames rand inp s k).pipes[i]? = some q ∧ q.active = true)
    (hdead : ∃ q, (frames rand inp s n).pipes[i]? = some q ∧ q.active = false) :
    (∀ x y : Int, checkCollision (birdRect y) (scoreZone x) = true ↔
      (199 ≤ x ∧ x ≤ 306) ∧ (-60 ≤ y ∧ y ≤ 720)) ∧
    ∃ k, k + 1 < n ∧ ∃ q, (frames rand inp s (k + 1)).pipes[i]? = some q ∧ q.active = true ∧
      199 ≤ q.x ∧ q.x ≤ 306 ∧
      (-60 ≤ (frames rand inp s (k + 1)).birdRectY ∧ (frames rand inp s (k + 1)).birdRectY ≤ 720 →
        q.scored = true ∧
        (∃ r, (frames rand inp s n).pipes[i]? = some r ∧ r.active = false ∧ r.scored = true) ∧
        (p.scored = false → ∃ j, j ≤ k ∧
          slotCounted rand ((inp j).1.foldl handleEvent (frames rand inp s j)) (inp j).2 i
            = true)) := by
  refine ⟨scoreZone_overlap_iff, ?_⟩
  -- the position of the slot along the run
  have hstepq : ∀ k, k < n → ∃ q r, (frames rand inp s k).pipes[i]? = some q ∧
      (frames rand inp s (k + 1)).pipes[i]? = some r ∧ q.x - 12 ≤ r.x ∧ r.x ≤ q.x ∧
      (r.active = true ↔ ¬ (r.x + 100 < 0)) ∧
      (checkCollision (birdRect (frames rand inp s (k + 1)).birdRectY) (scoreZone r.x) = true →
        r.scored = true) := by
    intro k hk
    obtain ⟨q, hq, hqa⟩ := hstay k hk
    obtain ⟨h1, h2⟩ := hplay k hk
    obtain ⟨r, hr, hrx, -, hra, -, hrz⟩ := frame_slot rand _ (inp k).1 (inp k).2 i q h1 h2 hq hqa
    refine ⟨q, r, hq, hr, ?_, ?_, hra, hrz⟩
    · rw [hrx]; split_ifs <;> omega
    · rw [hrx]; split_ifs <;> omega
  obtain ⟨qn, hqn, hqna⟩ := hdead
  have hn0 : 0 < n := by
    rcases Nat.eq_zero_or_pos n with h | h
    · subst h
      simp only [frames] at hqn
      rw [hslot] at hqn
      cases hqn
      rw [hact] at hqna
      exact absurd hqna (by decide)
    · exact h
  let x : Nat → Int := fun k => (((frames rand inp s k).pipes[i]?).map Pipe.x).getD 0
  have hxk : ∀ k q, (frames rand inp s k).pipes[i]? = some q → x k = q.x := by
    intro k q hq
    simp only [x, hq, Option.map_some', Option.getD_some]
  have hstepx : ∀ k, k < n → x k - 12 ≤ x (k + 1) ∧ x (k + 1) ≤ x k := by
    intro k hk
    obtain ⟨q, r, hq, hr, h1, h2, -⟩ := hstepq k hk
    rw [hxk k q hq, hxk (k + 1) r hr]
    exact ⟨h1, h2⟩
  have hx0 : 211 ≤ x 0 := by
    rw [hxk 0 p (by simpa [frames] using hslot)]; exact hx
  have hxn : x n < 199 := by
    obtain ⟨q, r, hq, hr, -, -, hra, -⟩ := hstepq (n - 1) (by omega)
    rw [show n - 1 + 1 = n by omega] at hr
    rw [hqn] at hr
    cases hr
    rw [hxk n qn hqn]
    by_contra hcon
    have : qn.active = true := hra.2 (by omega)
    rw [hqna] at this
    exact absurd this (by decide)
  obtain ⟨k, hk, hlo, hhi⟩ := window_crossing x n hstepx hx0 hxn
  obtain ⟨q, r, hq, hr, -, -, hra, hrz⟩ := hstepq k hk
  rw [hxk (k + 1) r hr] at hlo hhi
  have hract : r.active = true := hra.2 (by omega)
  have hk1 : k + 1 < n := by
    rcases Nat.lt_or_ge (k + 1) n with h | h
    · exact h
    · have hkn : k + 1 = n := by omega
      rw [hkn, hqn] at hr
      cases hr
      rw [hqna] at hract
      exact absurd hract (by decide)
  refine ⟨k, hk1, r, hr, hract, hlo, hhi, ?_⟩
  intro hy
  have hrs : r.scored = true := hrz ((scoreZone_overlap_iff r.x _).2 ⟨⟨hlo, hhi⟩, hy⟩)
  refine ⟨hrs, ?_, ?_⟩
  · obtain ⟨t, ht, hts⟩ := frames_scored_persists rand inp s i n hplay hstay (k + 1)
      ⟨r, hr, hrs⟩ (n - (k + 1)) (by omega)
    rw [show k + 1 + (n - (k + 1)) = n by omega] at ht
    rw [hqn] at ht
    cases ht
    exact ⟨qn, hqn, hqna, hts⟩
  · intro hp
    obtain ⟨j, hj, hc⟩ := frames_scored_counted rand inp s i n p hslot hp hplay hstay (k + 1)
      (by omega) ⟨r, hr, hrs⟩
    exact ⟨j, by omega, hc⟩

theorem slot_of_map_active {l : List Pipe} {i : Nat} {b : Bool}
    (h : (l[i]?).map Pipe.active = some b) : ∃ q, l[i]? = some q ∧ q.active = b := by
  cases hq : l[i]? with
  | none => simp [hq] at h
  | some q => exact ⟨q, rfl, by simpa [hq] using h⟩

set_option maxRecDepth 100000 in
theorem dash_cannot_skip_zone_witness :
    ∃ k, k + 1 < 185 ∧ ∃ q,
      (frames (fun _ => 250) dashEveryOther glideGame (k + 1)).pipes[0]? = some q ∧
      q.active = true ∧ 199 ≤ q.x ∧ q.x ≤ 306 ∧
      (-60 ≤ (frames (fun _ => 250) dashEveryOther glideGame (k + 1)).birdRectY ∧
        (frames (fun _ => 250) dashEveryOther glideGame (k + 1)).birdRectY ≤ 720 →
        q.scored = true ∧
        (∃ r, (frames (fun _ => 250) dashEveryOther glideGame 185).pipes[0]? = some r ∧
          r.active = false ∧ r.scored = true) ∧
        ((⟨1280, 300, true, false⟩ : Pipe).scored = false → ∃ j, j ≤ k ∧
          slotCounted (fun _ => 250)
            ((dashEveryOther j).1.foldl handleEvent
              (frames (fun _ => 250) dashEveryOther glideGame j))
            (dashEveryOther j).2 0 = true)) :=
  have hstay : ∀ k, k < 185 →
      ((frames (fun _ => 250) dashEveryOther glideGame k).pipes[0]?).map Pipe.active
        = some true := by decide!
  (dash_cannot_skip_zone (fun _ => 250) dashEveryOther glideGame 0 185 ⟨1280, 300, true, false⟩
    rfl rfl (by decide) (by decide!) (fun k hk => slot_of_map_active (hstay k hk))
    (slot_of_map_active (by decide!))).2

end FloppyBird
